import Mathlib

/-!
Shallow embedding of the workflow-base execution engine
(`src/workflow-engine.ts`) and its capability sandbox coordinator
(`src/sandbox-manager.ts`), together with theorems settling the frozen
claims about them.

Modelling conventions:
* JavaScript data values passed between nodes are modelled by `JVal`
  (null, numbers, strings, objects-as-association-lists).
* A node's `function(input, next)` is modelled by a pure function from the
  input to a `NodeOutcome`: either the ordered list of recorded
  `next(target, data)` calls, or a thrown exception's message.  This is
  faithful to the engine, which awaits the node function and only then
  inspects the recorded calls, catching any synchronous or asynchronous
  throw.
* A JS call that can either return a value or throw is modelled by
  `ExecOutcome` (`ok` / `thrown`).
* General recursion of `executeNode` is modelled with explicit fuel;
  `executeWorkflow` supplies `nodes.length + 1` fuel, which is proved
  sufficient (`executeNode_isSome`) because the execution path only ever
  accumulates distinct node names.
-/

namespace WorkflowBase

/-- JavaScript-like data values exchanged between workflow nodes. -/
inductive JVal where
  | vnull : JVal
  | vnum (n : Int) : JVal
  | vstr (s : String) : JVal
  | vobj (fields : List (String × JVal)) : JVal

/-- JavaScript truthiness of a `JVal` (used for `input?.message || default`
and `result.error || default`). -/
def truthy : JVal → Bool
  | .vnull => false
  | .vnum n => n != 0
  | .vstr s => s != ""
  | .vobj _ => true

/-- First-match association-list lookup (JS object property read). -/
def olookup : List (String × JVal) → String → Option JVal
  | [], _ => none
  | (k, v) :: rest, key => if k = key then some v else olookup rest key

/-- Optional-chained property access `input?.[key]`: `none` when the value
is not an object or lacks the key. -/
def getField : JVal → String → Option JVal
  | .vobj fields, key => olookup fields key
  | _, _ => none

/-- Setting a key on a JS object: overwrite an existing entry in place,
otherwise append (insertion order is preserved, as for JS objects). -/
def setKey (o : List (String × JVal)) (key : String) (v : JVal) : List (String × JVal) :=
  if o.any (fun p => p.1 = key) then
    o.map (fun p => if p.1 = key then (key, v) else p)
  else
    o ++ [(key, v)]

/-- `Object.assign(target, src)`: copy every entry of `src` into `target`
in order, later entries overwriting earlier ones. -/
def objAssign (target : List (String × JVal)) (src : List (String × JVal)) : List (String × JVal) :=
  src.foldl (fun t p => setKey t p.1 p.2) target

/-- `mergeInputs` from `src/workflow-engine.ts`: shallow-merge all object
inputs into one object (non-objects are skipped), later inputs
overwriting earlier ones on key collisions. -/
def mergeInputs (inputs : List JVal) : JVal :=
  .vobj (inputs.foldl
    (fun merged i =>
      match i with
      | .vobj fields => objAssign merged fields
      | _ => merged)
    [])

/-- Capability registry values: a callable, a nested object of further
entries, or some other primitive with the given JS truthiness. -/
inductive Caps where
  | fn : Caps
  | obj (fields : List (String × Caps)) : Caps
  | prim (isTruthy : Bool) : Caps

/-- JS truthiness of a capability-registry value. -/
def capTruthy : Caps → Bool
  | .fn => true
  | .obj _ => true
  | .prim b => b

/-- Association lookup in a capability object. -/
def capLookup : List (String × Caps) → String → Option Caps
  | [], _ => none
  | (k, v) :: rest, key => if k = key then some v else capLookup rest key

/-- One step of dot-path traversal `current?.[part]`. -/
def capStep : Caps → String → Option Caps
  | .obj fields, key => capLookup fields key
  | _, _ => none

/-- Loop of `isFunctionAvailable`: walk the remaining path parts, failing
on a missing or falsy intermediate, and finally require a callable. -/
def isFunctionAvailableGo : Caps → List String → Bool
  | current, [] =>
      match current with
      | .fn => true
      | _ => false
  | current, part :: parts =>
      match capStep current part with
      | none => false
      | some c => if capTruthy c then isFunctionAvailableGo c parts else false

/-- Character-level split on `.` (structurally recursive so that concrete
instances compute): the worker accumulates the current part reversed. -/
def splitDotGo : List Char → List Char → List String
  | [], acc => [String.mk acc.reverse]
  | c :: rest, acc =>
    if c = '.' then String.mk acc.reverse :: splitDotGo rest []
    else splitDotGo rest (c :: acc)

/-- `funcName.split('.')`: the dot-separated parts of a capability name
(an empty string yields one empty part, like the JS split). -/
def splitDot (s : String) : List String :=
  splitDotGo s.toList []

/-- `isFunctionAvailable` from `src/sandbox-manager.ts`: split the name on
dots and traverse the registry, requiring every intermediate value to be
truthy and the final value to be a function. -/
def isFunctionAvailable (funcName : String) (protectedFunctions : List (String × Caps)) : Bool :=
  isFunctionAvailableGo (.obj protectedFunctions) (splitDot funcName)

end WorkflowBase

namespace WorkflowBase

/-- Error message for an unregistered workflow name. -/
def workflowNotFoundMsg (name : String) : String :=
  "Workflow '" ++ name ++ "' not found"

end WorkflowBase

namespace WorkflowBase

/-- Outcome of running a node's `function(input, next)` to completion: the
ordered list of recorded `next(targetNode, data)` calls, or the message of
an exception thrown (synchronously or asynchronously) by the function. -/
inductive NodeOutcome where
  | calls (cs : List (String × JVal)) : NodeOutcome
  | throws (msg : String) : NodeOutcome

/-- Shape of the object the sandbox coordinator resolves with:
`{ success, nextCalls?, error? }` (from `src/sandbox-manager.ts`). -/
structure SandboxRunResult where
  success : Bool
  nextCalls : List (String × JVal) := []
  error : Option String := none

/-- Abstraction of one round trip with the sandbox worker for one
activation: the worker posts a `result` message, posts an `error`
message, or the 10-second timeout fires first.  Real wall-clock time is
abstracted into which of these three events settles the promise. -/
inductive WorkerOutcome where
  | response (r : SandboxRunResult) : WorkerOutcome
  | errorMsg (e : String) : WorkerOutcome
  | timeout : WorkerOutcome

/-- A workflow node: `name`, the sandbox whitelist (empty = not
sandboxed), the node's `function`, and — for sandboxed nodes — the
abstracted behaviour `worker` of its extracted body inside the sandbox
worker. -/
structure WorkflowNode where
  name : String
  sandbox : List String := []
  function : JVal → NodeOutcome
  worker : JVal → WorkerOutcome := fun _ => WorkerOutcome.timeout

/-- A validated workflow definition (trigger metadata, which is irrelevant
to execution, is omitted). -/
structure WorkflowDefinition where
  name : String
  nodes : List WorkflowNode
  protectedFunctions : List (String × Caps) := []

/-- The `WorkflowResult` shape `{ success, result?, error?, executionPath? }`.
`error` is kept as a `JVal` because `input?.message` may be any value. -/
structure WorkflowResult where
  success : Bool
  result : Option JVal := none
  error : Option JVal := none
  executionPath : Option (List String) := none

/-- A JS call that either returns a `WorkflowResult` or throws. -/
inductive ExecOutcome where
  | ok (r : WorkflowResult) : ExecOutcome
  | thrown (msg : String) : ExecOutcome

/-- The node names of a workflow, in declaration order. -/
def nodeNames (wf : WorkflowDefinition) : List String :=
  wf.nodes.map (fun n => n.name)

/-- `workflow.nodes.find(n => n.name === nodeName)`. -/
def findNode (wf : WorkflowDefinition) (nodeName : String) : Option WorkflowNode :=
  wf.nodes.find? (fun n => n.name == nodeName)

/-- Message of the circular-dependency error. -/
def circularMsg (executionPath : List String) (nodeName : String) : String :=
  "Circular dependency detected: " ++ String.intercalate " -> " executionPath ++ " -> " ++ nodeName

/-- Message thrown when a single `next` call targets an unknown node. -/
def nodeNotFoundMsg (nodeName : String) (workflowName : String) : String :=
  "Node '" ++ nodeName ++ "' not found in workflow '" ++ workflowName ++ "'"

/-- Message thrown when a fan-out branch targets an unknown node. -/
def branchNotFoundMsg (branchName : String) : String :=
  "Node '" ++ branchName ++ "' not found"

/-- Default error payload when `ERROR` is reached without a truthy
`message` field. -/
def defaultErrorMsg : String := "Workflow ended with error"

/-- Error used when the sandbox coordinator reports failure without a
truthy error string. -/
def sandboxFailedMsg : String := "Sandbox execution failed"

/-- Message of the rejected promise when the 10-second sandbox timeout
fires. -/
def sandboxTimeoutMsg : String := "Sandbox execution timeout (10s)"

/-- Error payload of the `ERROR` sentinel:
`input?.message || 'Workflow ended with error'`. -/
def errorFromInput (input : JVal) : JVal :=
  match getField input "message" with
  | some v => if truthy v then v else .vstr defaultErrorMsg
  | none => .vstr defaultErrorMsg

/-- `result.error || 'Sandbox execution failed'` (JS `||` on an optional
string). -/
def orTruthy (o : Option String) (d : String) : String :=
  match o with
  | some s => if s != "" then s else d
  | none => d

/-- Step 1 of `executeParallelNextCalls`: run every immediate branch
node's `function` with an intercepting continuation, flattening the
captured subsequent calls as `(fromBranch, targetNode, data)` triples in
branch order.  A missing branch node or a throwing branch function
rejects the whole `Promise.all`. -/
def runBranches (wf : WorkflowDefinition) : List (String × JVal) → Except String (List (String × String × JVal))
  | [] => .ok []
  | (branchName, data) :: rest =>
    match findNode wf branchName with
    | none => .error (branchNotFoundMsg branchName)
    | some node =>
      match node.function data with
      | .throws m => .error m
      | .calls cs =>
        match runBranches wf rest with
        | .error m => .error m
        | .ok flat => .ok ((cs.map (fun c => (branchName, c.1, c.2))) ++ flat)

/-- Append one captured call to the group of its target (JS `Map` with
`push`: first-occurrence ordering of keys, appending within a group). -/
def addToGroup : List (String × List JVal) → String → JVal → List (String × List JVal)
  | [], target, data => [(target, [data])]
  | (k, ds) :: rest, target, data =>
    if k = target then (k, ds ++ [data]) :: rest
    else (k, ds) :: addToGroup rest target data

/-- Fold the captured calls into the grouped map, in capture order. -/
def groupInto (groups : List (String × List JVal)) : List (String × String × JVal) → List (String × List JVal)
  | [] => groups
  | (_, target, data) :: rest => groupInto (addToGroup groups target data) rest

/-- Step 2 of `executeParallelNextCalls`: group the captured subsequent
calls by target node name. -/
def groupByTarget (calls : List (String × String × JVal)) : List (String × List JVal) :=
  groupInto [] calls

/-- Data handed to a grouped target: a single contributor's data verbatim,
otherwise the shallow merge of all contributors. -/
def mergedDataOf (ds : List JVal) : JVal :=
  match ds with
  | [d] => d
  | _ => mergeInputs ds

/-- Step 3 of `executeParallelNextCalls`: resolve each grouped target once
with its merged data through the ordinary `executeNode` path (abstracted
here as `exec`), collecting `(targetNode, result, data)`; a throw from a
target aborts the remaining targets. -/
def runGrouped (exec : String → JVal → Option ExecOutcome) : List (String × List JVal) → Option (Except String (List (String × WorkflowResult × JVal)))
  | [] => some (.ok [])
  | (target, ds) :: rest =>
    match exec target (mergedDataOf ds) with
    | none => none
    | some (.thrown m) => some (.error m)
    | some (.ok r) =>
      match runGrouped exec rest with
      | none => none
      | some (.error m) => some (.error m)
      | some (.ok l) => some (.ok ((target, r, mergedDataOf ds) :: l))

/-- `executeParallelNextCalls` from `src/workflow-engine.ts`: run all
branches capturing their continuation calls, group the captured calls by
target, then resolve each distinct target exactly once with merged data.
`exec` is `executeNode` at the pre-fan-out path with the remaining fuel. -/
def executeParallelNextCalls (wf : WorkflowDefinition) (exec : String → JVal → Option ExecOutcome) (nextCalls : List (String × JVal)) : Option (Except String (List (String × WorkflowResult × JVal))) :=
  match runBranches wf nextCalls with
  | .error m => some (.error m)
  | .ok flat => runGrouped exec (groupByTarget flat)

/-- `mergeParallelResults` from `src/workflow-engine.ts`: first failure in
target-processing order wins; otherwise the first successful result with
its `executionPath` defaulted; an empty list falls back to a fresh
success. -/
def mergeParallelResults (results : List (String × WorkflowResult × JVal)) (executionPath : List String) : WorkflowResult :=
  match results.find? (fun r => !r.2.1.success) with
  | some f => f.2.1
  | none =>
    match results with
    | [] => { success := true, result := some (.vobj []), executionPath := some executionPath }
    | r :: _ =>
      { r.2.1 with
        executionPath := some (match r.2.1.executionPath with
          | some p => p
          | none => executionPath) }

end WorkflowBase

namespace WorkflowBase

/-- `getOrCreateWorker` from `src/sandbox-manager.ts`, with worker
provisioning abstracted: reuse the worker bound to the workflow name, or
lazily create one (only possible when the runtime is Deno). -/
def getOrCreateWorker (isDeno : Bool) (workers : List String) (workflowName : String) : Except String (List String) :=
  if workers.contains workflowName then .ok workers
  else if isDeno then .ok (workers ++ [workflowName])
  else .error "Worker creation is only supported in Deno environment"

/-- `executeInWorker` from `src/sandbox-manager.ts`: resolve with the
worker's `result` message, resolve with a failure on its `error` message,
or reject when the 10-second timeout fires first.  Note that the timeout
only rejects the promise; it does not touch the worker. -/
def executeInWorker (outcome : WorkerOutcome) : Except String SandboxRunResult :=
  match outcome with
  | .response r => .ok r
  | .errorMsg e => .ok { success := false, error := some e }
  | .timeout => .error sandboxTimeoutMsg

/-- `SandboxManager.executeSandboxedNode`: the guard throw for a
non-sandboxed node escapes (`.error`); everything else is caught by the
internal try/catch and returned as a `SandboxRunResult`.  The first
component is the worker registry after the call. -/
def smExecuteSandboxedNode (isDeno : Bool) (workers : List String) (node : WorkflowNode) (input : JVal) (workflowName : String) : List String × Except String SandboxRunResult :=
  if node.sandbox.isEmpty then
    (workers, .error ("Node '" ++ node.name ++ "' is not configured for sandbox execution"))
  else
    match getOrCreateWorker isDeno workers workflowName with
    | .error m => (workers, .ok { success := false, error := some m })
    | .ok workers' =>
      match executeInWorker (node.worker input) with
      | .error m => (workers', .ok { success := false, error := some m })
      | .ok r => (workers', .ok r)

/-- Result of one sandboxed activation as seen by the engine (running in
Deno with the sandbox manager initialised); the worker registry does not
influence this value, which `smExecuteSandboxedNode_run` proves. -/
def runSandboxed (node : WorkflowNode) (input : JVal) : SandboxRunResult :=
  match node.worker input with
  | .response r => r
  | .errorMsg e => { success := false, error := some e }
  | .timeout => { success := false, error := some sandboxTimeoutMsg }

/-- `WorkflowEngine.executeSandboxedNode`: `executionPath` here is already
the incoming path extended with the node's name (the engine passes
`newExecutionPath` at the call site).  `exec` is `executeNode` with the
remaining fuel. -/
def executeSandboxedNodeStep (wf : WorkflowDefinition) (exec : String → JVal → List String → Option ExecOutcome) (node : WorkflowNode) (input : JVal) (executionPath : List String) : Option ExecOutcome :=
  let result := runSandboxed node input
  if !result.success then
    some (.ok { success := false, error := some (.vstr (orTruthy result.error sandboxFailedMsg)), executionPath := some executionPath })
  else
    match result.nextCalls with
    | [] =>
      some (.ok { success := true, result := some input, executionPath := some (executionPath ++ [node.name]) })
    | [c] =>
      match exec c.1 c.2 executionPath with
      | none => none
      | some (.thrown m) => some (.ok { success := false, error := some (.vstr m), executionPath := some executionPath })
      | some (.ok r) => some (.ok r)
    | cs =>
      match executeParallelNextCalls wf (fun t d => exec t d executionPath) cs with
      | none => none
      | some (.error m) => some (.ok { success := false, error := some (.vstr m), executionPath := some executionPath })
      | some (.ok results) => some (.ok (mergeParallelResults results executionPath))

/-- Body of `WorkflowEngine.executeNode`, with `exec` standing for the
recursive call at the remaining fuel: cycle check, sentinel / not-found
handling, then either the sandbox path or direct execution with the
recording continuation, dispatching on the number of recorded calls. -/
def executeNodeStep (wf : WorkflowDefinition) (exec : String → JVal → List String → Option ExecOutcome) (nodeName : String) (input : JVal) (executionPath : List String) : Option ExecOutcome :=
  if executionPath.contains nodeName then
    some (.thrown (circularMsg executionPath nodeName))
  else
    match findNode wf nodeName with
    | none =>
      if nodeName = "SUCCESS" then
        some (.ok { success := true, result := some input, executionPath := some (executionPath ++ [nodeName]) })
      else if nodeName = "ERROR" then
        some (.ok { success := false, error := some (errorFromInput input), executionPath := some (executionPath ++ [nodeName]) })
      else
        some (.thrown (nodeNotFoundMsg nodeName wf.name))
    | some node =>
      let newExecutionPath := executionPath ++ [nodeName]
      if !node.sandbox.isEmpty then
        executeSandboxedNodeStep wf exec node input newExecutionPath
      else
        match node.function input with
        | .throws m =>
          some (.ok { success := false, error := some (.vstr m), executionPath := some newExecutionPath })
        | .calls [] =>
          some (.ok { success := true, result := some input, executionPath := some newExecutionPath })
        | .calls [c] =>
          match exec c.1 c.2 newExecutionPath with
          | none => none
          | some (.thrown m) => some (.ok { success := false, error := some (.vstr m), executionPath := some newExecutionPath })
          | some (.ok r) => some (.ok r)
        | .calls cs =>
          match executeParallelNextCalls wf (fun t d => exec t d newExecutionPath) cs with
          | none => none
          | some (.error m) => some (.ok { success := false, error := some (.vstr m), executionPath := some newExecutionPath })
          | some (.ok results) => some (.ok (mergeParallelResults results newExecutionPath))

/-- `WorkflowEngine.executeNode`, with fuel bounding the recursion depth
(`none` = fuel exhausted; `executeWorkflow` always supplies enough). -/
def executeNode (wf : WorkflowDefinition) (fuel : Nat) : String → JVal → List String → Option ExecOutcome :=
  Nat.rec (fun _ _ _ => none) (fun _ ih => executeNodeStep wf ih) fuel

/-- The registry of created workflows (`this.workflows`). -/
structure WorkflowEngine where
  workflows : List (String × WorkflowDefinition) := []

/-- Registry lookup (`this.workflows.get`). -/
def getWorkflow (engine : WorkflowEngine) (name : String) : Option WorkflowDefinition :=
  match engine.workflows.find? (fun p => p.1 == name) with
  | some p => some p.2
  | none => none

/-- `WorkflowEngine.executeWorkflow`: unknown names yield a failure
result; otherwise run from `start` with an empty path, converting any
escaping throw into a failure result (without an execution path). -/
def executeWorkflow (engine : WorkflowEngine) (workflowName : String) (input : JVal) : Option WorkflowResult :=
  match getWorkflow engine workflowName with
  | none => some { success := false, error := some (.vstr (workflowNotFoundMsg workflowName)) }
  | some wf =>
    match executeNode wf (wf.nodes.length + 1) "start" input [] with
    | none => none
    | some (.ok r) => some r
    | some (.thrown m) => some { success := false, error := some (.vstr m) }

end WorkflowBase

namespace WorkflowBase

/-- First name that repeats in the list, scanning left to right with the
set of names seen so far (the loop of `validateWorkflow`). -/
def firstDupGo (seen : List String) : List String → Option String
  | [] => none
  | x :: xs => if seen.contains x then some x else firstDupGo (x :: seen) xs

/-- First duplicated node name, if any. -/
def firstDuplicate (names : List String) : Option String :=
  firstDupGo [] names

/-- `validateWorkflow` from `src/workflow-engine.ts`: at least one node, a
node named `start`, and no duplicate node names; the first violation
found is thrown. -/
def validateWorkflow (workflow : WorkflowDefinition) : Except String Unit :=
  if workflow.nodes.isEmpty then
    .error ("Workflow '" ++ workflow.name ++ "' must have at least one node")
  else if !(workflow.nodes.any (fun n => n.name == "start")) then
    .error ("Workflow '" ++ workflow.name ++ "' must have a 'start' node")
  else
    match firstDuplicate (nodeNames workflow) with
    | some n => .error ("Workflow '" ++ workflow.name ++ "' has duplicate node name: '" ++ n ++ "'")
    | none => .ok ()

/-- Modelled from the spec: `validateSandboxSupport` lives in
`src/runtime.ts`, which is not among the sources; per the spec,
"constructing a graph containing any sandboxed node in an environment
lacking isolated-worker support fails with an *Unsupported Environment*
error". -/
def validateSandboxSupport (isDeno : Bool) : Except String Unit :=
  if isDeno then .ok () else .error "Unsupported environment: sandboxed nodes require isolated worker support"

/-- Error message of `validateSandboxFunctions` for an unresolvable name. -/
def missingFunctionMsg (funcName : String) (nodeName : String) (protectedFunctions : List (String × Caps)) : String :=
  "Function '" ++ funcName ++ "' required by sandboxed node '" ++ nodeName ++
    "' is not available in protectedFunctions. Available functions: " ++
    String.intercalate ", " (protectedFunctions.map (fun p => p.1))

/-- `validateSandboxFunctions` from `src/sandbox-manager.ts`: every name
on every node's sandbox whitelist must resolve to a function in the
registry; the first unresolvable name is thrown. -/
def validateSandboxFunctions (nodes : List WorkflowNode) (protectedFunctions : List (String × Caps)) : Except String Unit :=
  match nodes with
  | [] => .ok ()
  | node :: rest =>
    match node.sandbox.find? (fun f => !(isFunctionAvailable f protectedFunctions)) with
    | some f => .error (missingFunctionMsg f node.name protectedFunctions)
    | none => validateSandboxFunctions rest protectedFunctions

/-- `validateSandboxConfiguration` from `src/workflow-engine.ts`: only
runs when some node is sandboxed; checks environment support, then the
whitelisted names. -/
def validateSandboxConfiguration (isDeno : Bool) (workflow : WorkflowDefinition) : Except String Unit :=
  if workflow.nodes.any (fun n => !n.sandbox.isEmpty) then
    match validateSandboxSupport isDeno with
    | .error m => .error m
    | .ok _ =>
      validateSandboxFunctions workflow.nodes workflow.protectedFunctions
  else
    .ok ()

/-- `WorkflowEngine.createWorkflow`: build the definition and validate it;
every violation is raised here, at construction time. -/
def createWorkflow (isDeno : Bool) (name : String) (nodes : List WorkflowNode) (protectedFunctions : List (String × Caps)) : Except String WorkflowDefinition :=
  let workflow : WorkflowDefinition := { name := name, nodes := nodes, protectedFunctions := protectedFunctions }
  match validateWorkflow workflow with
  | .error m => .error m
  | .ok _ =>
    match validateSandboxConfiguration isDeno workflow with
    | .error m => .error m
    | .ok _ => .ok workflow

/-- Whether an `Except` is a success. -/
def exceptOk {α : Type} : Except String α → Bool
  | .ok _ => true
  | .error _ => false

end WorkflowBase

namespace WorkflowBase

/-- Shorthand for a plain (non-sandboxed) node. -/
def mkNode (name : String) (f : JVal → NodeOutcome) : WorkflowNode :=
  { name := name, function := f }

/-- The spec's cycle example: `start → a → b → a`. -/
def cycleWorkflow : WorkflowDefinition :=
  { name := "cycle"
    nodes :=
      [ mkNode "start" (fun _ => .calls [("a", .vobj [])])
      , mkNode "a" (fun _ => .calls [("b", .vobj [])])
      , mkNode "b" (fun _ => .calls [("a", .vobj [])]) ] }

/-- Engine with the cycle workflow registered. -/
def cycleEngine : WorkflowEngine :=
  { workflows := [("cycle", cycleWorkflow)] }

/-- Fan-out graph in which a circular dependency is hit while another
grouped target has already failed: `start` fans out to `A` and `B`;
`A`'s branch targets `tA`, whose function throws `boom`; `B`'s branch
targets `tB`, which calls back into `start` (a cycle). -/
def maskWorkflow : WorkflowDefinition :=
  { name := "mask"
    nodes :=
      [ mkNode "start" (fun _ => .calls [("A", .vobj []), ("B", .vobj [])])
      , mkNode "A" (fun _ => .calls [("tA", .vobj [])])
      , mkNode "B" (fun _ => .calls [("tB", .vobj [])])
      , mkNode "tA" (fun _ => .throws "boom")
      , mkNode "tB" (fun _ => .calls [("start", .vobj [])]) ] }

/-- Engine with the masking workflow registered. -/
def maskEngine : WorkflowEngine :=
  { workflows := [("mask", maskWorkflow)] }

/-- A single sandboxed `start` node whose sandboxed body completes
successfully without recording any continuation call. -/
def sandboxZeroWorkflow : WorkflowDefinition :=
  { name := "sb"
    nodes :=
      [ { name := "start"
          sandbox := ["log"]
          function := fun _ => .calls []
          worker := fun _ => .response { success := true } } ]
    protectedFunctions := [("log", .fn)] }

/-- Engine with the sandboxed zero-call workflow registered. -/
def sandboxZeroEngine : WorkflowEngine :=
  { workflows := [("sb", sandboxZeroWorkflow)] }

/-- `start` ends the workflow at `ERROR` with a present-but-empty
`message` field. -/
def errorFalsyWorkflow : WorkflowDefinition :=
  { name := "errw"
    nodes := [ mkNode "start" (fun _ => .calls [("ERROR", .vobj [("message", .vstr "")])]) ] }

/-- Engine with the falsy-message workflow registered. -/
def errorFalsyEngine : WorkflowEngine :=
  { workflows := [("errw", errorFalsyWorkflow)] }

/-- A sandboxed node whose activation never completes: the 10-second
timeout fires. -/
def timeoutNode : WorkflowNode :=
  { name := "start"
    sandbox := ["log"]
    function := fun _ => .calls []
    worker := fun _ => .timeout }

/-- Workflow consisting of the timing-out sandboxed node. -/
def timeoutWorkflow : WorkflowDefinition :=
  { name := "tw"
    nodes := [timeoutNode]
    protectedFunctions := [("log", .fn)] }

/-- Engine with the timeout workflow registered. -/
def timeoutEngine : WorkflowEngine :=
  { workflows := [("tw", timeoutWorkflow)] }

/-- A `start` node whose function throws. -/
def throwWorkflow : WorkflowDefinition :=
  { name := "boom"
    nodes := [ mkNode "start" (fun _ => .throws "boom") ] }

/-- Engine with the throwing workflow registered. -/
def throwEngine : WorkflowEngine :=
  { workflows := [("boom", throwWorkflow)] }

/-- The spec's fan-out example: `start` calls `m` and `p`, both of which
call `r`; `r` records no further calls. -/
def fanoutWorkflow : WorkflowDefinition :=
  { name := "fan"
    nodes :=
      [ mkNode "start" (fun _ => .calls [("m", .vobj []), ("p", .vobj [])])
      , mkNode "m" (fun _ => .calls [("r", .vobj [("a", .vnum 1), ("k", .vnum 10)])])
      , mkNode "p" (fun _ => .calls [("r", .vobj [("b", .vnum 2), ("k", .vnum 20)])])
      , mkNode "r" (fun _ => .calls []) ] }

/-- Engine with the fan-out workflow registered. -/
def fanoutEngine : WorkflowEngine :=
  { workflows := [("fan", fanoutWorkflow)] }

/-- Fan-out whose first branch targets the `SUCCESS` sentinel directly;
also contains a node `m` for the second branch. -/
def sentinelFanoutWorkflow : WorkflowDefinition :=
  { name := "sf"
    nodes :=
      [ mkNode "start" (fun _ => .calls [("SUCCESS", .vobj []), ("m", .vobj [])])
      , mkNode "m" (fun _ => .calls []) ] }

/-- Engine with the sentinel fan-out workflow registered. -/
def sentinelFanoutEngine : WorkflowEngine :=
  { workflows := [("sf", sentinelFanoutWorkflow)] }

/-- A single node that forwards its input to `SUCCESS`. -/
def singleSuccessWorkflow : WorkflowDefinition :=
  { name := "single"
    nodes := [ mkNode "start" (fun i => .calls [("SUCCESS", i)]) ] }

end WorkflowBase

namespace WorkflowBase

example : executeWorkflow cycleEngine "cycle" (.vobj []) =
    some { success := false
         , error := some (.vstr "Circular dependency detected: start -> a -> b -> a")
         , executionPath := some ["start", "a", "b"] } := rfl

example : executeWorkflow maskEngine "mask" (.vobj []) =
    some { success := false
         , error := some (.vstr "boom")
         , executionPath := some ["start", "tA"] } := rfl

example : executeWorkflow sandboxZeroEngine "sb" (.vobj []) =
    some { success := true
         , result := some (.vobj [])
         , executionPath := some ["start", "start"] } := rfl

example : executeWorkflow errorFalsyEngine "errw" (.vobj []) =
    some { success := false
         , error := some (.vstr "Workflow ended with error")
         , executionPath := some ["start", "ERROR"] } := rfl

example : executeWorkflow timeoutEngine "tw" (.vobj []) =
    some { success := false
         , error := some (.vstr "Sandbox execution timeout (10s)")
         , executionPath := some ["start"] } := rfl

example : executeWorkflow throwEngine "boom" (.vobj []) =
    some { success := false
         , error := some (.vstr "boom")
         , executionPath := some ["start"] } := rfl

example : executeWorkflow fanoutEngine "fan" (.vobj []) =
    some { success := true
         , result := some (.vobj [("a", .vnum 1), ("k", .vnum 20), ("b", .vnum 2)])
         , executionPath := some ["start", "r"] } := rfl

example : executeWorkflow sentinelFanoutEngine "sf" (.vobj []) =
    some { success := false
         , error := some (.vstr "Node 'SUCCESS' not found")
         , executionPath := some ["start"] } := rfl

end WorkflowBase

namespace WorkflowBase

/-- Data payloads contributed to a target by the captured branch calls, in
capture order. -/
def contributionsOf (target : String) (flat : List (String × String × JVal)) : List JVal :=
  flat.filterMap (fun c => if c.2.1 = target then some c.2.2 else none)

/-- First-match lookup in the grouped-calls map. -/
def lookupGroup : List (String × List JVal) → String → Option (List JVal)
  | [], _ => none
  | (k, ds) :: rest, target => if k = target then some ds else lookupGroup rest target

/-- A fan-out branch call that neither misses its node nor throws. -/
def branchOk (wf : WorkflowDefinition) (call : String × JVal) : Prop :=
  ∃ node cs, findNode wf call.1 = some node ∧ node.function call.2 = .calls cs

/-- A single trusted `start` node recording zero continuation calls. -/
def trustedZeroWorkflow : WorkflowDefinition :=
  { name := "tz"
    nodes := [ mkNode "start" (fun _ => .calls []) ] }

/-- Engine with the trusted zero-call workflow registered. -/
def trustedZeroEngine : WorkflowEngine :=
  { workflows := [("tz", trustedZeroWorkflow)] }

end WorkflowBase

namespace WorkflowBase

theorem executeNode_zero (wf : WorkflowDefinition) (n : String) (i : JVal) (p : List String) :
    executeNode wf 0 n i p = none := rfl

theorem executeNode_succ (wf : WorkflowDefinition) (fuel : Nat) :
    executeNode wf (fuel + 1) = executeNodeStep wf (executeNode wf fuel) := rfl

theorem findNode_name {wf : WorkflowDefinition} {n : String} {node : WorkflowNode}
    (h : findNode wf n = some node) : node.name = n := by
  have := List.find?_some h
  simpa using this

theorem findNode_mem {wf : WorkflowDefinition} {n : String} {node : WorkflowNode}
    (h : findNode wf n = some node) : node ∈ wf.nodes :=
  List.mem_of_find?_eq_some h

theorem findNode_mem_nodeNames {wf : WorkflowDefinition} {n : String} {node : WorkflowNode}
    (h : findNode wf n = some node) : n ∈ nodeNames wf := by
  have hm := findNode_mem h
  have hn := findNode_name h
  exact hn ▸ List.mem_map_of_mem (fun x => x.name) hm

theorem contains_eq_false_of_not_mem {l : List String} {a : String} (h : a ∉ l) :
    l.contains a = false := by
  by_contra hc
  exact h (List.elem_iff.mp (eq_true_of_ne_false hc))

theorem contains_eq_true_of_mem {l : List String} {a : String} (h : a ∈ l) :
    l.contains a = true := List.elem_iff.mpr h

theorem nodup_subset_length_le {l bound : List String} (hnd : l.Nodup)
    (hsub : ∀ x ∈ l, x ∈ bound) : l.length ≤ bound.length := by
  have h1 : l.toFinset.card = l.length := List.toFinset_card_of_nodup hnd
  have h2 : l.toFinset ⊆ bound.toFinset := by
    intro x hx
    exact List.mem_toFinset.mpr (hsub x (List.mem_toFinset.mp hx))
  calc l.length = l.toFinset.card := h1.symm
    _ ≤ bound.toFinset.card := Finset.card_le_card h2
    _ ≤ bound.length := List.toFinset_card_le bound

theorem runGrouped_isSome (exec : String → JVal → Option ExecOutcome)
    (h : ∀ t d, (exec t d).isSome) :
    ∀ groups, (runGrouped exec groups).isSome := by
  intro groups
  induction groups with
  | nil => simp [runGrouped]
  | cons g rest ih =>
    obtain ⟨t, ds⟩ := g
    obtain ⟨v, hv⟩ := Option.isSome_iff_exists.mp (h t (mergedDataOf ds))
    cases v with
    | thrown m => simp [runGrouped, hv]
    | ok r =>
      obtain ⟨w, hw⟩ := Option.isSome_iff_exists.mp ih
      cases w with
      | error m => simp [runGrouped, hv, hw]
      | ok l => simp [runGrouped, hv, hw]

theorem executeParallelNextCalls_isSome (wf : WorkflowDefinition)
    (exec : String → JVal → Option ExecOutcome) (nextCalls : List (String × JVal))
    (h : ∀ t d, (exec t d).isSome) :
    (executeParallelNextCalls wf exec nextCalls).isSome := by
  unfold executeParallelNextCalls
  cases hb : runBranches wf nextCalls with
  | error m => simp
  | ok flat => exact runGrouped_isSome exec h (groupByTarget flat)

end WorkflowBase

namespace WorkflowBase

theorem executeSandboxedNodeStep_isSome (wf : WorkflowDefinition)
    (exec : String → JVal → List String → Option ExecOutcome)
    (node : WorkflowNode) (input : JVal) (path : List String)
    (h : ∀ t d, (exec t d path).isSome) :
    (executeSandboxedNodeStep wf exec node input path).isSome := by
  unfold executeSandboxedNodeStep
  cases hsr : runSandboxed node input with
  | mk success nextCalls error =>
    cases success with
    | false => simp
    | true =>
      cases nextCalls with
      | nil => simp
      | cons c rest =>
        cases rest with
        | nil =>
          obtain ⟨v, hv⟩ := Option.isSome_iff_exists.mp (h c.1 c.2)
          cases v <;> simp [hv]
        | cons c2 rest2 =>
          have hp := executeParallelNextCalls_isSome wf (fun t d => exec t d path)
            (c :: c2 :: rest2) (fun t d => h t d)
          obtain ⟨v, hv⟩ := Option.isSome_iff_exists.mp hp
          cases v <;> simp [hv]

theorem executeNode_isSome (wf : WorkflowDefinition) :
    ∀ (fuel : Nat) (name : String) (input : JVal) (path : List String),
      path.Nodup → (∀ x ∈ path, x ∈ nodeNames wf) →
      wf.nodes.length + 1 ≤ fuel + path.length →
      (executeNode wf fuel name input path).isSome := by
  intro fuel
  induction fuel with
  | zero =>
    intro name input path hnd hsub hlen
    exfalso
    have h1 : path.length ≤ (nodeNames wf).length := nodup_subset_length_le hnd hsub
    have h2 : (nodeNames wf).length = wf.nodes.length := List.length_map _ _
    omega
  | succ fuel ih =>
    intro name input path hnd hsub hlen
    rw [executeNode_succ]
    unfold executeNodeStep
    by_cases hmem : name ∈ path
    · rw [contains_eq_true_of_mem hmem]
      simp
    · rw [contains_eq_false_of_not_mem hmem]
      simp only [Bool.false_eq_true, if_false]
      cases hfind : findNode wf name with
      | none => split_ifs <;> simp
      | some node =>
        have hmemN : name ∈ nodeNames wf := findNode_mem_nodeNames hfind
        have hnd' : (path ++ [name]).Nodup := by
          rw [List.nodup_append]
          refine ⟨hnd, List.nodup_singleton name, ?_⟩
          intro a ha hb
          simp only [List.mem_singleton] at hb
          exact hmem (hb ▸ ha)
        have hsub' : ∀ x ∈ path ++ [name], x ∈ nodeNames wf := by
          intro x hx
          rcases List.mem_append.mp hx with h | h
          · exact hsub x h
          · simp only [List.mem_singleton] at h
            exact h ▸ hmemN
        have hlen' : wf.nodes.length + 1 ≤ fuel + (path ++ [name]).length := by
          simp only [List.length_append, List.length_singleton]
          omega
        have hexec : ∀ t d, (executeNode wf fuel t d (path ++ [name])).isSome :=
          fun t d => ih t d (path ++ [name]) hnd' hsub' hlen'
        by_cases hsb : node.sandbox.isEmpty = true
        · simp only [hsb, Bool.not_true, Bool.false_eq_true, if_false]
          cases hf : node.function input with
          | throws m => simp
          | calls cs =>
            cases cs with
            | nil => simp
            | cons c rest =>
              cases rest with
              | nil =>
                obtain ⟨v, hv⟩ := Option.isSome_iff_exists.mp (hexec c.1 c.2)
                cases v <;> simp [hv]
              | cons c2 rest2 =>
                have hp := executeParallelNextCalls_isSome wf
                  (fun t d => executeNode wf fuel t d (path ++ [name])) (c :: c2 :: rest2) hexec
                obtain ⟨v, hv⟩ := Option.isSome_iff_exists.mp hp
                cases v <;> simp [hv]
        · have hsb' : node.sandbox.isEmpty = false := by
            cases hval : node.sandbox.isEmpty
            · rfl
            · exact absurd hval hsb
          simp only [hsb', Bool.not_false, if_true]
          exact executeSandboxedNodeStep_isSome wf _ node input (path ++ [name]) hexec

theorem executeWorkflow_isSome (engine : WorkflowEngine) (name : String) (input : JVal) :
    (executeWorkflow engine name input).isSome := by
  unfold executeWorkflow
  cases hg : getWorkflow engine name with
  | none => simp
  | some wf =>
    have h := executeNode_isSome wf (wf.nodes.length + 1) "start" input []
      List.nodup_nil (by intro x hx; cases hx) (by simp)
    obtain ⟨v, hv⟩ := Option.isSome_iff_exists.mp h
    cases v <;> simp [hv]

end WorkflowBase

namespace WorkflowBase

theorem lookupGroup_addToGroup (groups : List (String × List JVal)) (t : String) (d : JVal) (q : String) :
    lookupGroup (addToGroup groups t d) q =
      if q = t then some (((lookupGroup groups t).getD []) ++ [d]) else lookupGroup groups q := by
  induction groups with
  | nil =>
    by_cases hq : q = t
    · subst hq; simp [addToGroup, lookupGroup]
    · have ht : ¬t = q := fun h => hq h.symm
      simp [addToGroup, lookupGroup, hq, ht]
  | cons g rest ih =>
    obtain ⟨k, ds⟩ := g
    by_cases hk : k = t
    · subst hk
      have heq : addToGroup ((k, ds) :: rest) k d = (k, ds ++ [d]) :: rest := by
        simp [addToGroup]
      rw [heq]
      by_cases hq : q = k
      · subst hq; simp [lookupGroup]
      · have hkq : ¬k = q := fun h => hq h.symm
        simp [lookupGroup, hq, hkq]
    · have heq : addToGroup ((k, ds) :: rest) t d = (k, ds) :: addToGroup rest t d := by
        simp [addToGroup, hk]
      rw [heq]
      by_cases hq : q = k
      · have hqt : ¬q = t := fun h => hk (hq.symm.trans h)
        have hkq : k = q := hq.symm
        simp [lookupGroup, hkq, hqt]
      · have hkq : ¬k = q := fun h => hq h.symm
        have hkt : ¬k = t := hk
        simp [lookupGroup, hkq, hkt, ih]

theorem mem_keys_addToGroup (groups : List (String × List JVal)) (t : String) (d : JVal) (q : String) :
    q ∈ (addToGroup groups t d).map (fun g => g.1) ↔
      q ∈ groups.map (fun g => g.1) ∨ q = t := by
  induction groups with
  | nil => simp [addToGroup]
  | cons g rest ih =>
    obtain ⟨k, ds⟩ := g
    by_cases hk : k = t
    · subst hk
      have heq : addToGroup ((k, ds) :: rest) k d = (k, ds ++ [d]) :: rest := by
        simp [addToGroup]
      rw [heq]
      simp only [List.map_cons, List.mem_cons]
      tauto
    · have heq : addToGroup ((k, ds) :: rest) t d = (k, ds) :: addToGroup rest t d := by
        simp [addToGroup, hk]
      rw [heq]
      simp only [List.map_cons, List.mem_cons, ih]
      tauto

theorem nodup_keys_addToGroup (groups : List (String × List JVal)) (t : String) (d : JVal)
    (h : (groups.map (fun g => g.1)).Nodup) :
    ((addToGroup groups t d).map (fun g => g.1)).Nodup := by
  induction groups with
  | nil => simp [addToGroup]
  | cons g rest ih =>
    obtain ⟨k, ds⟩ := g
    simp only [List.map_cons, List.nodup_cons] at h
    by_cases hk : k = t
    · subst hk
      have heq : addToGroup ((k, ds) :: rest) k d = (k, ds ++ [d]) :: rest := by
        simp [addToGroup]
      rw [heq]
      simp only [List.map_cons, List.nodup_cons]
      exact h
    · simp only [addToGroup, if_neg hk, List.map_cons, List.nodup_cons]
      constructor
      · intro hmem
        rcases (mem_keys_addToGroup rest t d k).mp hmem with h1 | h1
        · exact h.1 h1
        · exact hk h1
      · exact ih h.2

theorem contributionsOf_cons (t : String) (b target : String) (data : JVal)
    (rest : List (String × String × JVal)) :
    contributionsOf t ((b, target, data) :: rest) =
      if target = t then data :: contributionsOf t rest else contributionsOf t rest := by
  by_cases h : target = t <;> simp [contributionsOf, h]

theorem lookupGroup_groupInto_some (calls : List (String × String × JVal)) :
    ∀ (groups : List (String × List JVal)) (t : String) (ds : List JVal),
      lookupGroup groups t = some ds →
      lookupGroup (groupInto groups calls) t = some (ds ++ contributionsOf t calls) := by
  induction calls with
  | nil => intro groups t ds h; simpa [groupInto, contributionsOf] using h
  | cons c rest ih =>
    intro groups t ds h
    obtain ⟨b, target, data⟩ := c
    rw [contributionsOf_cons]
    show lookupGroup (groupInto (addToGroup groups target data) rest) t = _
    by_cases ht : target = t
    · subst ht
      have : lookupGroup (addToGroup groups target data) target = some (ds ++ [data]) := by
        rw [lookupGroup_addToGroup, if_pos rfl, h]
        rfl
      rw [ih _ _ _ this]
      simp
    · have : lookupGroup (addToGroup groups target data) t = some ds := by
        rw [lookupGroup_addToGroup, if_neg (fun hh => ht hh.symm)]
        exact h
      rw [ih _ _ _ this, if_neg ht]

theorem lookupGroup_groupInto_none (calls : List (String × String × JVal)) :
    ∀ (groups : List (String × List JVal)) (t : String),
      lookupGroup groups t = none →
      lookupGroup (groupInto groups calls) t =
        (match contributionsOf t calls with
         | [] => none
         | c => some c) := by
  induction calls with
  | nil => intro groups t h; simpa [groupInto, contributionsOf] using h
  | cons c rest ih =>
    intro groups t h
    obtain ⟨b, target, data⟩ := c
    rw [contributionsOf_cons]
    show lookupGroup (groupInto (addToGroup groups target data) rest) t = _
    by_cases ht : target = t
    · subst ht
      have : lookupGroup (addToGroup groups target data) target = some [data] := by
        rw [lookupGroup_addToGroup, if_pos rfl, h]
        rfl
      rw [lookupGroup_groupInto_some rest _ _ _ this]
      simp
    · have : lookupGroup (addToGroup groups target data) t = none := by
        rw [lookupGroup_addToGroup, if_neg (fun hh => ht hh.symm)]
        exact h
      rw [ih _ _ this, if_neg ht]

theorem lookupGroup_groupByTarget (calls : List (String × String × JVal)) (t : String) :
    lookupGroup (groupByTarget calls) t =
      (match contributionsOf t calls with
       | [] => none
       | c => some c) :=
  lookupGroup_groupInto_none calls [] t rfl

theorem nodup_keys_groupInto (calls : List (String × String × JVal)) :
    ∀ groups : List (String × List JVal),
      (groups.map (fun g => g.1)).Nodup →
      ((groupInto groups calls).map (fun g => g.1)).Nodup := by
  induction calls with
  | nil => intro groups h; exact h
  | cons c rest ih =>
    intro groups h
    obtain ⟨b, target, data⟩ := c
    exact ih _ (nodup_keys_addToGroup groups target data h)

theorem nodup_keys_groupByTarget (calls : List (String × String × JVal)) :
    ((groupByTarget calls).map (fun g => g.1)).Nodup :=
  nodup_keys_groupInto calls [] List.nodup_nil

theorem lookupGroup_isSome_iff (groups : List (String × List JVal)) (t : String) :
    (lookupGroup groups t).isSome ↔ t ∈ groups.map (fun g => g.1) := by
  induction groups with
  | nil => simp [lookupGroup]
  | cons g rest ih =>
    obtain ⟨k, ds⟩ := g
    by_cases hk : k = t
    · subst hk; simp [lookupGroup]
    · simp [lookupGroup, hk, ih, Ne.symm hk]

theorem contributionsOf_eq_nil_iff (t : String) (calls : List (String × String × JVal)) :
    contributionsOf t calls = [] ↔ t ∉ calls.map (fun c => c.2.1) := by
  rw [contributionsOf, List.filterMap_eq_nil_iff]
  constructor
  · intro h hmem
    obtain ⟨c, hc, hceq⟩ := List.mem_map.mp hmem
    have := h c hc
    rw [hceq] at this
    simp at this
  · intro h c hc
    by_cases heq : c.2.1 = t
    · exact absurd (List.mem_map.mpr ⟨c, hc, heq⟩) h
    · simp [heq]

end WorkflowBase

namespace WorkflowBase

theorem olookup_eq_none_of_no_key (o : List (String × JVal)) (k : String)
    (h : ∀ p ∈ o, ¬p.1 = k) : olookup o k = none := by
  induction o with
  | nil => rfl
  | cons p rest ih =>
    obtain ⟨k0, v0⟩ := p
    have h0 : ¬k0 = k := h (k0, v0) (List.mem_cons_self _ _)
    simp only [olookup, if_neg h0]
    exact ih (fun p hp => h p (List.mem_cons_of_mem _ hp))

theorem olookup_map_overwrite_self (o : List (String × JVal)) (k : String) (v : JVal) :
    olookup (o.map (fun p => if p.1 = k then (k, v) else p)) k =
      if o.any (fun p => p.1 = k) then some v else none := by
  induction o with
  | nil => simp [olookup]
  | cons p rest ih =>
    obtain ⟨k0, v0⟩ := p
    rw [List.map_cons]
    by_cases h0 : k0 = k
    · have hhead : (if (k0, v0).1 = k then (k, v) else (k0, v0)) = (k, v) := by
        simp [h0]
      rw [hhead]
      have hany : ((k0, v0) :: rest).any (fun p => p.1 = k) = true := by
        simp [h0]
      rw [hany]
      simp [olookup]
    · have hhead : (if (k0, v0).1 = k then (k, v) else (k0, v0)) = (k0, v0) := by
        simp [h0]
      rw [hhead]
      have hany : ((k0, v0) :: rest).any (fun p => p.1 = k) = rest.any (fun p => p.1 = k) := by
        simp [h0]
      rw [hany]
      simp only [olookup, if_neg h0]
      exact ih

theorem olookup_map_overwrite_other (o : List (String × JVal)) (k : String) (v : JVal)
    (q : String) (hq : ¬q = k) :
    olookup (o.map (fun p => if p.1 = k then (k, v) else p)) q = olookup o q := by
  induction o with
  | nil => simp
  | cons p rest ih =>
    obtain ⟨k0, v0⟩ := p
    rw [List.map_cons]
    by_cases h0 : k0 = k
    · have hhead : (if (k0, v0).1 = k then (k, v) else (k0, v0)) = (k, v) := by
        simp [h0]
      rw [hhead]
      have hkq : ¬k = q := fun h => hq h.symm
      have hk0q : ¬k0 = q := fun h => hq (h.symm.trans h0)
      simp only [olookup, if_neg hkq, if_neg hk0q]
      exact ih
    · have hhead : (if (k0, v0).1 = k then (k, v) else (k0, v0)) = (k0, v0) := by
        simp [h0]
      rw [hhead]
      by_cases hq0 : k0 = q
      · simp only [olookup, if_pos hq0]
      · simp only [olookup, if_neg hq0]
        exact ih

theorem olookup_append_single (o : List (String × JVal)) (k : String) (v : JVal) (q : String) :
    olookup (o ++ [(k, v)]) q =
      (match olookup o q with
       | some w => some w
       | none => if q = k then some v else none) := by
  induction o with
  | nil =>
    by_cases hq : q = k
    · subst hq; simp [olookup]
    · have hkq : ¬k = q := fun h => hq h.symm
      simp [olookup, hq, hkq]
  | cons p rest ih =>
    obtain ⟨k0, v0⟩ := p
    by_cases h0 : k0 = q
    · simp [olookup, h0]
    · simp [olookup, h0, ih]

theorem olookup_setKey (o : List (String × JVal)) (k : String) (v : JVal) (q : String) :
    olookup (setKey o k v) q = if q = k then some v else olookup o q := by
  unfold setKey
  by_cases ha : o.any (fun p => p.1 = k)
  · rw [if_pos ha]
    by_cases hq : q = k
    · subst hq
      rw [if_pos rfl, olookup_map_overwrite_self, if_pos ha]
    · rw [if_neg hq, olookup_map_overwrite_other o k v q hq]
  · rw [if_neg ha, olookup_append_single]
    by_cases hq : q = k
    · subst hq
      have hno : ∀ p ∈ o, ¬p.1 = q := by
        intro p hp
        by_contra hcon
        exact ha (List.any_eq_true.mpr ⟨p, hp, by simpa using hcon⟩)
      rw [olookup_eq_none_of_no_key o q hno]
    · cases h : olookup o q <;> simp [hq]

theorem olookup_objAssign (src : List (String × JVal)) :
    ∀ (target : List (String × JVal)) (q : String),
      olookup (objAssign target src) q =
        (match olookup src.reverse q with
         | some w => some w
         | none => olookup target q) := by
  induction src with
  | nil => intro target q; simp [objAssign, olookup]
  | cons p rest ih =>
    intro target q
    obtain ⟨k0, v0⟩ := p
    have hstep : objAssign target ((k0, v0) :: rest) = objAssign (setKey target k0 v0) rest := rfl
    rw [hstep, ih]
    have hrev : ((k0, v0) :: rest).reverse = rest.reverse ++ [(k0, v0)] := by simp
    rw [hrev, olookup_append_single]
    cases h : olookup rest.reverse q with
    | some w => rfl
    | none =>
      rw [olookup_setKey]
      by_cases hq : q = k0 <;> simp [hq]

theorem objAssign_append (t a b : List (String × JVal)) :
    objAssign t (a ++ b) = objAssign (objAssign t a) b :=
  List.foldl_append _ _ _ _

theorem mergeInputs_vobj_fold (fss : List (List (String × JVal))) :
    ∀ acc : List (String × JVal),
      (fss.map JVal.vobj).foldl
        (fun merged i =>
          match i with
          | .vobj fields => objAssign merged fields
          | _ => merged) acc = objAssign acc fss.flatten := by
  induction fss with
  | nil => intro acc; simp [objAssign]
  | cons fs rest ih =>
    intro acc
    simp only [List.map_cons, List.foldl_cons, List.flatten_cons]
    rw [ih, objAssign_append]

theorem mergeInputs_all_objects (fss : List (List (String × JVal))) :
    mergeInputs (fss.map JVal.vobj) = .vobj (objAssign [] fss.flatten) := by
  unfold mergeInputs
  rw [mergeInputs_vobj_fold]

theorem getField_mergeInputs_lastWins (fss : List (List (String × JVal))) (k : String) :
    getField (mergeInputs (fss.map JVal.vobj)) k = olookup fss.flatten.reverse k := by
  rw [mergeInputs_all_objects]
  show olookup (objAssign [] fss.flatten) k = _
  rw [olookup_objAssign]
  cases h : olookup fss.flatten.reverse k <;> simp [olookup]

end WorkflowBase

namespace WorkflowBase

theorem runGrouped_spec (exec : String → JVal → Option ExecOutcome) :
    ∀ (groups : List (String × List JVal)) (frs : List (String × WorkflowResult × JVal)),
      (groups.map (fun g => g.1)).Nodup →
      runGrouped exec groups = some (.ok frs) →
      frs.map (fun x => x.1) = groups.map (fun g => g.1) ∧
      ∀ x ∈ frs, ∃ ds, lookupGroup groups x.1 = some ds ∧ x.2.2 = mergedDataOf ds := by
  intro groups
  induction groups with
  | nil =>
    intro frs hnd hrun
    simp only [runGrouped] at hrun
    have : frs = [] := by
      cases frs with
      | nil => rfl
      | cons a l => simp at hrun
    subst this
    simp
  | cons g rest ih =>
    intro frs hnd hrun
    obtain ⟨t, ds⟩ := g
    simp only [runGrouped] at hrun
    cases he : exec t (mergedDataOf ds) with
    | none => rw [he] at hrun; simp at hrun
    | some v =>
      rw [he] at hrun
      cases v with
      | thrown m => simp at hrun
      | ok r =>
        cases hrest : runGrouped exec rest with
        | none => rw [hrest] at hrun; simp at hrun
        | some w =>
          rw [hrest] at hrun
          cases w with
          | error m => simp at hrun
          | ok l =>
            simp only [Option.some.injEq] at hrun
            have hfrs : frs = (t, r, mergedDataOf ds) :: l := by
              cases hrun; rfl
            subst hfrs
            simp only [List.map_cons, List.nodup_cons] at hnd
            obtain ⟨hkeys, hmem⟩ := ih l hnd.2 hrest
            constructor
            · simp [hkeys]
            · intro x hx
              rcases List.mem_cons.mp hx with hx1 | hx2
              · subst hx1
                refine ⟨ds, ?_, rfl⟩
                simp [lookupGroup]
              · obtain ⟨ds', hds', hdata⟩ := hmem x hx2
                refine ⟨ds', ?_, hdata⟩
                have hxkey : x.1 ∈ rest.map (fun g => g.1) := by
                  rw [← hkeys]
                  exact List.mem_map_of_mem (fun y => y.1) hx2
                have hxt : ¬t = x.1 := by
                  intro hcon
                  exact hnd.1 (hcon ▸ hxkey)
                simp only [lookupGroup, if_neg hxt]
                exact hds'

end WorkflowBase

namespace WorkflowBase

theorem runBranches_error_of_missing (wf : WorkflowDefinition) :
    ∀ (cs : List (String × JVal)) (t : String) (d : JVal),
      (t, d) ∈ cs → findNode wf t = none →
      ∃ m, runBranches wf cs = .error m := by
  intro cs
  induction cs with
  | nil => intro t d hmem; cases hmem
  | cons c rest ih =>
    intro t d hmem hfind
    obtain ⟨t0, d0⟩ := c
    rcases List.mem_cons.mp hmem with h1 | h2
    · have ht : t0 = t := (Prod.mk.injEq _ _ _ _).mp h1.symm |>.1
      subst ht
      exact ⟨branchNotFoundMsg t0, by simp [runBranches, hfind]⟩
    · cases hf0 : findNode wf t0 with
      | none => exact ⟨branchNotFoundMsg t0, by simp [runBranches, hf0]⟩
      | some node =>
        cases hfun : node.function d0 with
        | throws m => exact ⟨m, by simp [runBranches, hf0, hfun]⟩
        | calls cs0 =>
          obtain ⟨m, hm⟩ := ih t d h2 hfind
          exact ⟨m, by simp [runBranches, hf0, hfun, hm]⟩

theorem runBranches_first_missing (wf : WorkflowDefinition) :
    ∀ (pre : List (String × JVal)) (t : String) (d : JVal) (post : List (String × JVal)),
      (∀ x ∈ pre, branchOk wf x) → findNode wf t = none →
      runBranches wf (pre ++ (t, d) :: post) = .error (branchNotFoundMsg t) := by
  intro pre
  induction pre with
  | nil =>
    intro t d post hok hfind
    simp [runBranches, hfind]
  | cons c rest ih =>
    intro t d post hok hfind
    obtain ⟨node, cs0, hf0, hfun⟩ := hok c (List.mem_cons_self _ _)
    have hrest := ih t d post (fun x hx => hok x (List.mem_cons_of_mem _ hx)) hfind
    obtain ⟨t0, d0⟩ := c
    have hf0' : findNode wf t0 = some node := hf0
    have hfun' : node.function d0 = NodeOutcome.calls cs0 := hfun
    simp only [List.cons_append, runBranches, hf0', hfun', List.append_eq, hrest]

theorem smExecuteSandboxedNode_run (workers : List String) (node : WorkflowNode)
    (input : JVal) (w : String) (h : node.sandbox.isEmpty = false) :
    (smExecuteSandboxedNode true workers node input w).2 = .ok (runSandboxed node input) := by
  unfold smExecuteSandboxedNode
  simp only [h, Bool.false_eq_true, if_false]
  unfold getOrCreateWorker
  by_cases hc : workers.contains w <;>
    simp only [hc, if_pos, if_neg, Bool.false_eq_true, if_false, if_true] <;>
    cases hw : node.worker input <;>
    simp [executeInWorker, runSandboxed, hw]

end WorkflowBase

namespace WorkflowBase

theorem executeNode_circular_step (wf : WorkflowDefinition) (fuel : Nat) (name : String)
    (input : JVal) (path : List String) (hmem : name ∈ path) :
    executeNode wf (fuel + 1) name input path = some (.thrown (circularMsg path name)) := by
  rw [executeNode_succ]
  unfold executeNodeStep
  rw [contains_eq_true_of_mem hmem]
  simp

theorem executeNode_not_node (wf : WorkflowDefinition) (fuel : Nat) (name : String)
    (input : JVal) (path : List String)
    (hmem : name ∉ path) (hfind : findNode wf name = none) :
    executeNode wf (fuel + 1) name input path =
      (if name = "SUCCESS" then
        some (.ok { success := true, result := some input, executionPath := some (path ++ [name]) })
      else if name = "ERROR" then
        some (.ok { success := false, error := some (errorFromInput input), executionPath := some (path ++ [name]) })
      else
        some (.thrown (nodeNotFoundMsg name wf.name))) := by
  rw [executeNode_succ]
  unfold executeNodeStep
  rw [contains_eq_false_of_not_mem hmem]
  simp only [Bool.false_eq_true, if_false]
  rw [hfind]

theorem executeNode_trusted (wf : WorkflowDefinition) (fuel : Nat) {name : String}
    {node : WorkflowNode} (input : JVal) (path : List String)
    (hmem : name ∉ path) (hfind : findNode wf name = some node)
    (hsb : node.sandbox.isEmpty = true) :
    executeNode wf (fuel + 1) name input path =
      (match node.function input with
       | .throws m =>
         some (.ok { success := false, error := some (.vstr m), executionPath := some (path ++ [name]) })
       | .calls [] =>
         some (.ok { success := true, result := some input, executionPath := some (path ++ [name]) })
       | .calls [c] =>
         (match executeNode wf fuel c.1 c.2 (path ++ [name]) with
          | none => none
          | some (.thrown m) =>
            some (.ok { success := false, error := some (.vstr m), executionPath := some (path ++ [name]) })
          | some (.ok r) => some (.ok r))
       | .calls cs =>
         (match executeParallelNextCalls wf (fun t d => executeNode wf fuel t d (path ++ [name])) cs with
          | none => none
          | some (.error m) =>
            some (.ok { success := false, error := some (.vstr m), executionPath := some (path ++ [name]) })
          | some (.ok results) => some (.ok (mergeParallelResults results (path ++ [name]))))) := by
  rw [executeNode_succ]
  unfold executeNodeStep
  rw [contains_eq_false_of_not_mem hmem]
  simp only [Bool.false_eq_true, if_false]
  rw [hfind]
  simp only [hsb, Bool.not_true, Bool.false_eq_true, if_false]

theorem executeNode_sandboxed (wf : WorkflowDefinition) (fuel : Nat) {name : String}
    {node : WorkflowNode} (input : JVal) (path : List String)
    (hmem : name ∉ path) (hfind : findNode wf name = some node)
    (hsb : node.sandbox.isEmpty = false) :
    executeNode wf (fuel + 1) name input path =
      executeSandboxedNodeStep wf (executeNode wf fuel) node input (path ++ [name]) := by
  rw [executeNode_succ]
  unfold executeNodeStep
  rw [contains_eq_false_of_not_mem hmem]
  simp only [Bool.false_eq_true, if_false]
  rw [hfind]
  simp only [hsb, Bool.not_false, if_true]

end WorkflowBase

namespace WorkflowBase

/-- C10: for every input, calling `executeWorkflow` with a workflow name
that was never registered returns a `Result` with `success = false` and
`error` equal to `Workflow '<name>' not found`, with no `executionPath`,
rather than throwing. -/
theorem executeWorkflow_unknown_name (engine : WorkflowEngine) (workflowName : String)
    (input : JVal) (h : getWorkflow engine workflowName = none) :
    executeWorkflow engine workflowName input =
      some { success := false, result := none
           , error := some (.vstr ("Workflow '" ++ workflowName ++ "' not found"))
           , executionPath := none } := by
  unfold executeWorkflow
  rw [h]
  rfl

/-- Witness for C10 at the empty engine and the name `missing`. -/
theorem executeWorkflow_unknown_name_witness :
    executeWorkflow { workflows := [] } "missing" (.vobj []) =
      some { success := false, result := none
           , error := some (.vstr ("Workflow '" ++ "missing" ++ "' not found"))
           , executionPath := none } :=
  executeWorkflow_unknown_name { workflows := [] } "missing" (.vobj []) rfl

/-- C1: `executeWorkflow` always returns a `Result` (never an escaping
throw or unhandled rejection); a node function that throws — directly, or
inside the sandbox worker — has its activation converted into a failure
`Result` carrying the exception's message. -/
theorem executeWorkflow_total_and_catches :
    (∀ (engine : WorkflowEngine) (workflowName : String) (input : JVal),
        (executeWorkflow engine workflowName input).isSome = true) ∧
    (∀ (wf : WorkflowDefinition) (fuel : Nat) (name : String) (node : WorkflowNode)
        (input : JVal) (path : List String) (msg : String),
        name ∉ path → findNode wf name = some node → node.sandbox.isEmpty = true →
        node.function input = .throws msg →
        executeNode wf (fuel + 1) name input path =
          some (.ok { success := false, result := none, error := some (.vstr msg)
                    , executionPath := some (path ++ [name]) })) ∧
    (∀ (wf : WorkflowDefinition) (fuel : Nat) (name : String) (node : WorkflowNode)
        (input : JVal) (path : List String) (msg : String),
        name ∉ path → findNode wf name = some node → node.sandbox.isEmpty = false →
        node.worker input = .errorMsg msg → msg ≠ "" →
        executeNode wf (fuel + 1) name input path =
          some (.ok { success := false, result := none, error := some (.vstr msg)
                    , executionPath := some (path ++ [name]) })) := by
  refine ⟨fun engine n i => executeWorkflow_isSome engine n i, ?_, ?_⟩
  · intro wf fuel name node input path msg hmem hfind hsb hfun
    rw [executeNode_trusted wf fuel input path hmem hfind hsb, hfun]
  · intro wf fuel name node input path msg hmem hfind hsb hw hne
    rw [executeNode_sandboxed wf fuel input path hmem hfind hsb]
    have hrs : runSandboxed node input = { success := false, nextCalls := [], error := some msg } := by
      simp [runSandboxed, hw]
    have hbne : (msg != "") = true := by
      simpa using hne
    unfold executeSandboxedNodeStep
    rw [hrs]
    simp [orTruthy, hbne]

/-- Witness for C1 at a workflow whose `start` throws `boom`. -/
theorem executeWorkflow_total_and_catches_witness :
    (executeWorkflow throwEngine "boom" (.vobj [])).isSome = true ∧
    executeNode throwWorkflow 1 "start" (.vobj []) [] =
      some (.ok { success := false, result := none, error := some (.vstr "boom")
                , executionPath := some ["start"] }) := by
  constructor
  · exact executeWorkflow_total_and_catches.1 throwEngine "boom" (.vobj [])
  · exact executeWorkflow_total_and_catches.2.1 throwWorkflow 0 "start"
      (mkNode "start" (fun _ => .throws "boom")) (.vobj []) [] "boom"
      (by simp) rfl rfl rfl

/-- C2 (amended): entering `resolve` with a target already on the
execution path does not execute the node and throws a
circular-dependency error naming the accumulated path and the repeated
node, which the nearest enclosing activation converts into a failure
`Result`; on a purely sequential graph `start → a → b → a` the overall
result is a failure whose error mentions the circular dependency and the
repeated node. -/
theorem circular_dependency_detection :
    (∀ (wf : WorkflowDefinition) (fuel : Nat) (name : String) (input : JVal) (path : List String),
        name ∈ path →
        executeNode wf (fuel + 1) name input path = some (.thrown (circularMsg path name))) ∧
    executeWorkflow cycleEngine "cycle" (.vobj []) =
      some { success := false, result := none
           , error := some (.vstr "Circular dependency detected: start -> a -> b -> a")
           , executionPath := some ["start", "a", "b"] } :=
  ⟨fun wf fuel name input path h => executeNode_circular_step wf fuel name input path h, rfl⟩

/-- Witness for C2 at the cycle workflow's repeated entry of `a`. -/
theorem circular_dependency_detection_witness :
    executeNode cycleWorkflow 1 "a" (.vobj []) ["start", "a", "b"] =
      some (.thrown "Circular dependency detected: start -> a -> b -> a") := by
  rw [circular_dependency_detection.1 cycleWorkflow 0 "a" (.vobj []) ["start", "a", "b"] (by decide)]
  rfl

/-- C2 counterexample: in the `mask` graph, `resolve` is entered with the
repeated node `start` on the path (second and third conjuncts show that
entry throwing the circular error and the enclosing `tB` activation
converting it), yet the overall `execute` result is a failure whose
error is `boom` — it does not mention the circular dependency, because
the fan-in merge meets `tA`'s failure first. -/
theorem circular_error_masked_by_fanin :
    executeWorkflow maskEngine "mask" (.vobj []) =
      some { success := false, result := none, error := some (.vstr "boom")
           , executionPath := some ["start", "tA"] } ∧
    executeNode maskWorkflow 1 "start" (.vobj []) ["start", "tB"] =
      some (.thrown "Circular dependency detected: start -> tB -> start") ∧
    executeNode maskWorkflow 2 "tB" (.vobj []) ["start"] =
      some (.ok { success := false, result := none
                , error := some (.vstr "Circular dependency detected: start -> tB -> start")
                , executionPath := some ["start", "tB"] }) :=
  ⟨rfl, rfl, rfl⟩

/-- C5 (code evaluated at the failing input): a sandboxed activation that
records zero continuation calls returns its input as the result but
appends the node's name twice to the execution path
(`['start', 'start']`), while the same shape of trusted activation
appends it exactly once. -/
theorem sandboxed_zero_call_path_duplicated :
    executeWorkflow sandboxZeroEngine "sb" (.vobj []) =
      some { success := true, result := some (.vobj []), error := none
           , executionPath := some ["start", "start"] } ∧
    executeWorkflow trustedZeroEngine "tz" (.vobj []) =
      some { success := true, result := some (.vobj []), error := none
           , executionPath := some ["start"] } :=
  ⟨rfl, rfl⟩

/-- C6 (amended): a target that is not a node of the graph is handled as
a sentinel: `SUCCESS` returns success with the propagated input;
`ERROR` returns failure with `error` taken from the input's `message`
field when that value is truthy, and the default message otherwise
(absent or falsy); both append the sentinel name to the incoming path. -/
theorem sentinel_targets_behavior (wf : WorkflowDefinition) (fuel : Nat) (input : JVal)
    (path : List String) :
    (findNode wf "SUCCESS" = none → "SUCCESS" ∉ path →
      executeNode wf (fuel + 1) "SUCCESS" input path =
        some (.ok { success := true, result := some input, error := none
                  , executionPath := some (path ++ ["SUCCESS"]) })) ∧
    (findNode wf "ERROR" = none → "ERROR" ∉ path →
      executeNode wf (fuel + 1) "ERROR" input path =
        some (.ok { success := false, result := none
                  , error := some (match getField input "message" with
                      | some v => if truthy v then v else .vstr "Workflow ended with error"
                      | none => .vstr "Workflow ended with error")
                  , executionPath := some (path ++ ["ERROR"]) })) := by
  constructor
  · intro hf hm
    rw [executeNode_not_node wf fuel "SUCCESS" input path hm hf]
    simp
  · intro hf hm
    rw [executeNode_not_node wf fuel "ERROR" input path hm hf]
    simp [errorFromInput, defaultErrorMsg]

/-- Witness for C6 at concrete sentinel resolutions. -/
theorem sentinel_targets_behavior_witness :
    executeNode singleSuccessWorkflow 1 "SUCCESS" (.vobj [("x", .vnum 1)]) ["start"] =
      some (.ok { success := true, result := some (.vobj [("x", .vnum 1)]), error := none
                , executionPath := some ["start", "SUCCESS"] }) ∧
    executeNode singleSuccessWorkflow 1 "ERROR" (.vobj [("message", .vstr "hi")]) ["start"] =
      some (.ok { success := false, result := none, error := some (.vstr "hi")
                , executionPath := some ["start", "ERROR"] }) := by
  constructor
  · exact (sentinel_targets_behavior singleSuccessWorkflow 0 (.vobj [("x", .vnum 1)]) ["start"]).1
      rfl (by decide)
  · have h := (sentinel_targets_behavior singleSuccessWorkflow 0
      (.vobj [("message", .vstr "hi")]) ["start"]).2 rfl (by decide)
    exact h.trans (by rfl)

/-- C6 counterexample: with a present but falsy `message` field (the
empty string), the `ERROR` sentinel produces the default error, not the
value of the `message` field. -/
theorem error_message_falsy_counterexample :
    executeWorkflow errorFalsyEngine "errw" (.vobj []) =
      some { success := false, result := none
           , error := some (.vstr "Workflow ended with error")
           , executionPath := some ["start", "ERROR"] } ∧
    getField (.vobj [("message", .vstr "")]) "message" = some (.vstr "") :=
  ⟨rfl, rfl⟩

/-- C7: a sandboxed activation whose worker round trip hits the
10-second timeout fails with the sandbox-timeout error, the timeout
neither terminates the workflow's worker nor removes it from the worker
registry, the engine converts the activation into a failure `Result`,
and `executeWorkflow` still returns a `Result`. -/
theorem sandbox_timeout_behavior :
    (∀ (workers : List String) (node : WorkflowNode) (input : JVal) (w : String),
        node.sandbox.isEmpty = false → node.worker input = .timeout →
        (smExecuteSandboxedNode true workers node input w).2 =
          .ok { success := false, nextCalls := [], error := some "Sandbox execution timeout (10s)" } ∧
        (smExecuteSandboxedNode true workers node input w).1 =
          (if workers.contains w then workers else workers ++ [w]) ∧
        w ∈ (smExecuteSandboxedNode true workers node input w).1 ∧
        (∀ x ∈ workers, x ∈ (smExecuteSandboxedNode true workers node input w).1)) ∧
    (∀ (wf : WorkflowDefinition) (fuel : Nat) (name : String) (node : WorkflowNode)
        (input : JVal) (path : List String),
        name ∉ path → findNode wf name = some node → node.sandbox.isEmpty = false →
        node.worker input = .timeout →
        executeNode wf (fuel + 1) name input path =
          some (.ok { success := false, result := none
                    , error := some (.vstr "Sandbox execution timeout (10s)")
                    , executionPath := some (path ++ [name]) })) ∧
    (∀ (engine : WorkflowEngine) (n : String) (input : JVal),
        (executeWorkflow engine n input).isSome = true) := by
  refine ⟨?_, ?_, fun engine n i => executeWorkflow_isSome engine n i⟩
  · intro workers node input w hsb hw
    unfold smExecuteSandboxedNode
    simp only [hsb, Bool.false_eq_true, if_false]
    unfold getOrCreateWorker
    by_cases hc : workers.contains w
    · simp only [hc, if_true]
      rw [hw]
      refine ⟨rfl, rfl, List.elem_iff.mp hc, fun x hx => hx⟩
    · have hc' : workers.contains w = false := by
        cases h : workers.contains w
        · rfl
        · exact absurd h hc
      simp only [hc', Bool.false_eq_true, if_false, if_true]
      rw [hw]
      refine ⟨rfl, rfl, ?_, fun x hx => List.mem_append_left _ hx⟩
      exact List.mem_append_right _ (List.mem_singleton.mpr rfl)
  · intro wf fuel name node input path hmem hfind hsb hw
    rw [executeNode_sandboxed wf fuel input path hmem hfind hsb]
    have hrs : runSandboxed node input =
        { success := false, nextCalls := [], error := some sandboxTimeoutMsg } := by
      simp [runSandboxed, hw]
    unfold executeSandboxedNodeStep
    rw [hrs]
    rfl

/-- Witness for C7 at the timing-out sandboxed workflow. -/
theorem sandbox_timeout_behavior_witness :
    (smExecuteSandboxedNode true [] timeoutNode (.vobj []) "tw").2 =
      .ok { success := false, nextCalls := [], error := some "Sandbox execution timeout (10s)" } ∧
    executeNode timeoutWorkflow 1 "start" (.vobj []) [] =
      some (.ok { success := false, result := none
                , error := some (.vstr "Sandbox execution timeout (10s)")
                , executionPath := some ["start"] }) ∧
    (executeWorkflow timeoutEngine "tw" (.vobj [])).isSome = true := by
  refine ⟨(sandbox_timeout_behavior.1 [] timeoutNode (.vobj []) "tw" rfl rfl).1, ?_,
    sandbox_timeout_behavior.2.2 timeoutEngine "tw" (.vobj [])⟩
  exact sandbox_timeout_behavior.2.1 timeoutWorkflow 0 "start" timeoutNode (.vobj []) []
    (by simp) rfl rfl rfl

end WorkflowBase

namespace WorkflowBase

theorem find?_failure_skip_successes :
    ∀ (pre : List (String × WorkflowResult × JVal)) (t : String) (r : WorkflowResult)
      (d : JVal) (post : List (String × WorkflowResult × JVal)),
      (∀ x ∈ pre, x.2.1.success = true) → r.success = false →
      (pre ++ (t, r, d) :: post).find? (fun x => !x.2.1.success) = some (t, r, d) := by
  intro pre
  induction pre with
  | nil =>
    intro t r d post hpre hr
    simp [List.find?, hr]
  | cons x rest ih =>
    intro t r d post hpre hr
    have hx : x.2.1.success = true := hpre x (List.mem_cons_self _ _)
    simp only [List.cons_append, List.find?, hx, Bool.not_true]
    exact ih t r d post (fun y hy => hpre y (List.mem_cons_of_mem _ hy)) hr

/-- C8: after fan-in, the per-target results are combined by taking the
first failure in target-processing order; when all targets succeeded, the
first target's result is returned with its path defaulted to the
pre-fan-out path when unset. -/
theorem mergeParallelResults_spec :
    (∀ (pre post : List (String × WorkflowResult × JVal)) (t : String) (r : WorkflowResult)
        (d : JVal) (executionPath : List String),
        (∀ x ∈ pre, x.2.1.success = true) → r.success = false →
        mergeParallelResults (pre ++ (t, r, d) :: post) executionPath = r) ∧
    (∀ (rest : List (String × WorkflowResult × JVal)) (t : String) (r : WorkflowResult)
        (d : JVal) (executionPath : List String),
        r.success = true → (∀ x ∈ rest, x.2.1.success = true) →
        mergeParallelResults ((t, r, d) :: rest) executionPath =
          { r with executionPath := some (r.executionPath.getD executionPath) }) := by
  constructor
  · intro pre post t r d executionPath hpre hr
    unfold mergeParallelResults
    rw [find?_failure_skip_successes pre t r d post hpre hr]
  · intro rest t r d executionPath hr hrest
    have hnone : ((t, r, d) :: rest).find? (fun x => !x.2.1.success) = none := by
      rw [List.find?_eq_none]
      intro x hx
      rcases List.mem_cons.mp hx with h1 | h2
      · subst h1; simp [hr]
      · simp [hrest x h2]
    unfold mergeParallelResults
    rw [hnone]
    cases hp : r.executionPath <;> simp [hp]

/-- Witness for C8 at concrete result lists. -/
theorem mergeParallelResults_spec_witness :
    mergeParallelResults
      [ ("t1", { success := true, result := some (.vnum 1) }, JVal.vnull)
      , ("t2", { success := false, error := some (.vstr "e") }, JVal.vnull) ] ["p"] =
      { success := false, error := some (.vstr "e") } ∧
    mergeParallelResults
      [ ("t1", { success := true, result := some (.vnum 1) }, JVal.vnull)
      , ("t2", { success := true }, JVal.vnull) ] ["p"] =
      { success := true, result := some (.vnum 1)
      , executionPath := some ["p"] } := by
  constructor
  · exact mergeParallelResults_spec.1
      [("t1", { success := true, result := some (.vnum 1) }, JVal.vnull)] [] "t2"
      { success := false, error := some (.vstr "e") } JVal.vnull ["p"]
      (by intro x hx; simp only [List.mem_singleton] at hx; subst hx; rfl) rfl
  · exact mergeParallelResults_spec.2
      [("t2", { success := true }, JVal.vnull)] "t1"
      { success := true, result := some (.vnum 1) } JVal.vnull ["p"] rfl
      (by intro x hx; simp only [List.mem_singleton] at hx; subst hx; rfl)

theorem executeNode_parallel_error (wf : WorkflowDefinition) (fuel : Nat) {name : String}
    {node : WorkflowNode} (input : JVal) (path : List String)
    (cs : List (String × JVal)) (m : String)
    (hmem : name ∉ path) (hfind : findNode wf name = some node)
    (hsb : node.sandbox.isEmpty = true) (hfun : node.function input = .calls cs)
    (hlen : 2 ≤ cs.length) (herr : runBranches wf cs = .error m) :
    executeNode wf (fuel + 1) name input path =
      some (.ok { success := false, result := none, error := some (.vstr m)
                , executionPath := some (path ++ [name]) }) := by
  rw [executeNode_trusted wf fuel input path hmem hfind hsb, hfun]
  cases cs with
  | nil => simp at hlen
  | cons c1 rest =>
    cases rest with
    | nil => simp at hlen
    | cons c2 rest2 =>
      simp only [executeParallelNextCalls, herr]

end WorkflowBase

namespace WorkflowBase

/-- C9: in a fan-out (two or more recorded calls), a recorded target that
is not a node of the graph — the sentinels `SUCCESS` and `ERROR`
included — makes the branch execution throw `Node '<t>' not found` and
the whole activation return a failure `Result`; by contrast, a single
recorded call may target `SUCCESS` directly and end the workflow
successfully. -/
theorem fanout_sentinel_targets_fail :
    (∀ (wf : WorkflowDefinition) (fuel : Nat) (name : String) (node : WorkflowNode)
        (input : JVal) (path : List String) (pre post : List (String × JVal))
        (t : String) (d : JVal),
        name ∉ path → findNode wf name = some node → node.sandbox.isEmpty = true →
        node.function input = .calls (pre ++ (t, d) :: post) →
        2 ≤ (pre ++ (t, d) :: post).length →
        (∀ x ∈ pre, branchOk wf x) → findNode wf t = none →
        executeNode wf (fuel + 1) name input path =
          some (.ok { success := false, result := none
                    , error := some (.vstr ("Node '" ++ t ++ "' not found"))
                    , executionPath := some (path ++ [name]) })) ∧
    (∀ (wf : WorkflowDefinition) (fuel : Nat) (name : String) (node : WorkflowNode)
        (input : JVal) (path : List String) (cs : List (String × JVal))
        (t : String) (d : JVal),
        name ∉ path → findNode wf name = some node → node.sandbox.isEmpty = true →
        node.function input = .calls cs → 2 ≤ cs.length →
        (t, d) ∈ cs → findNode wf t = none →
        ∃ m, executeNode wf (fuel + 1) name input path =
          some (.ok { success := false, result := none, error := some (.vstr m)
                    , executionPath := some (path ++ [name]) })) ∧
    (∀ (wf : WorkflowDefinition) (fuel : Nat) (name : String) (node : WorkflowNode)
        (input : JVal) (path : List String) (d : JVal),
        name ∉ path → "SUCCESS" ∉ path → findNode wf name = some node →
        node.sandbox.isEmpty = true → node.function input = .calls [("SUCCESS", d)] →
        findNode wf "SUCCESS" = none →
        executeNode wf (fuel + 2) name input path =
          some (.ok { success := true, result := some d, error := none
                    , executionPath := some (path ++ [name] ++ ["SUCCESS"]) })) := by
  refine ⟨?_, ?_, ?_⟩
  · intro wf fuel name node input path pre post t d hmem hfind hsb hfun hlen hpre ht
    exact executeNode_parallel_error wf fuel input path (pre ++ (t, d) :: post)
      (branchNotFoundMsg t) hmem hfind hsb hfun hlen
      (runBranches_first_missing wf pre t d post hpre ht)
  · intro wf fuel name node input path cs t d hmem hfind hsb hfun hlen hcs ht
    obtain ⟨m, hm⟩ := runBranches_error_of_missing wf cs t d hcs ht
    exact ⟨m, executeNode_parallel_error wf fuel input path cs m hmem hfind hsb hfun hlen hm⟩
  · intro wf fuel name node input path d hmem hs hfind hsb hfun hfinds
    have hname : ¬name = "SUCCESS" := by
      intro heq
      rw [heq, hfinds] at hfind
      cases hfind
    have hs' : "SUCCESS" ∉ path ++ [name] := by
      intro hsmem
      rcases List.mem_append.mp hsmem with h1 | h2
      · exact hs h1
      · simp only [List.mem_singleton] at h2
        exact hname h2.symm
    have hsent := executeNode_not_node wf fuel "SUCCESS" d (path ++ [name]) hs' hfinds
    rw [if_pos rfl] at hsent
    rw [executeNode_trusted wf (fuel + 1) input path hmem hfind hsb, hfun]
    simp only [hsent]

/-- Witness for C9 at the sentinel fan-out workflow and the
single-call-to-`SUCCESS` workflow. -/
theorem fanout_sentinel_targets_fail_witness :
    executeNode sentinelFanoutWorkflow 1 "start" (.vobj []) [] =
      some (.ok { success := false, result := none
                , error := some (.vstr ("Node '" ++ "SUCCESS" ++ "' not found"))
                , executionPath := some ["start"] }) ∧
    executeNode singleSuccessWorkflow 2 "start" (.vobj [("x", .vnum 1)]) [] =
      some (.ok { success := true, result := some (.vobj [("x", .vnum 1)]), error := none
                , executionPath := some ["start", "SUCCESS"] }) := by
  constructor
  · have h := fanout_sentinel_targets_fail.1 sentinelFanoutWorkflow 0 "start"
      (mkNode "start" (fun _ => .calls [("SUCCESS", .vobj []), ("m", .vobj [])]))
      (.vobj []) [] [] [("m", .vobj [])] "SUCCESS" (.vobj [])
      (by simp) rfl rfl rfl (by decide) (by intro x hx; cases hx) rfl
    simpa using h
  · have h := fanout_sentinel_targets_fail.2.2 singleSuccessWorkflow 0 "start"
      (mkNode "start" (fun i => .calls [("SUCCESS", i)]))
      (.vobj [("x", .vnum 1)]) [] (.vobj [("x", .vnum 1)])
      (by simp) (by simp) rfl rfl rfl rfl
    simpa using h

end WorkflowBase

namespace WorkflowBase

theorem firstDupGo_eq_none_iff :
    ∀ (l seen : List String), firstDupGo seen l = none ↔ (l.Nodup ∧ ∀ x ∈ l, x ∉ seen) := by
  intro l
  induction l with
  | nil => intro seen; simp [firstDupGo]
  | cons x xs ih =>
    intro seen
    by_cases hx : seen.contains x = true
    · have hxs : x ∈ seen := List.elem_iff.mp hx
      unfold firstDupGo
      rw [if_pos hx]
      constructor
      · intro h; cases h
      · rintro ⟨_, hall⟩
        exact absurd hxs (hall x (List.mem_cons_self _ _))
    · have hxseen : x ∉ seen := fun h => hx (List.elem_iff.mpr h)
      unfold firstDupGo
      rw [if_neg hx, ih (x :: seen)]
      constructor
      · rintro ⟨hnd, hall⟩
        refine ⟨List.nodup_cons.mpr ⟨?_, hnd⟩, ?_⟩
        · intro hxmem
          exact (hall x hxmem) (List.mem_cons_self x seen)
        · intro y hy
          rcases List.mem_cons.mp hy with rfl | hy'
          · exact hxseen
          · intro hyseen
            exact (hall y hy') (List.mem_cons_of_mem x hyseen)
      · rintro ⟨hnd, hall⟩
        have hnd' := List.nodup_cons.mp hnd
        refine ⟨hnd'.2, ?_⟩
        intro y hy hymem
        rcases List.mem_cons.mp hymem with rfl | hy'
        · exact hnd'.1 hy
        · exact (hall y (List.mem_cons_of_mem x hy)) hy'

theorem firstDuplicate_eq_none_iff (l : List String) :
    firstDuplicate l = none ↔ l.Nodup := by
  rw [firstDuplicate, firstDupGo_eq_none_iff]
  simp

theorem validateWorkflow_isOk_iff (wf : WorkflowDefinition) :
    exceptOk (validateWorkflow wf) = true ↔
      (wf.nodes ≠ [] ∧ (∃ n ∈ wf.nodes, n.name = "start") ∧ (nodeNames wf).Nodup) := by
  unfold validateWorkflow
  by_cases he : wf.nodes.isEmpty = true
  · rw [if_pos he]
    have : wf.nodes = [] := List.isEmpty_iff.mp he
    simp [exceptOk, this]
  · rw [if_neg he]
    have hne : wf.nodes ≠ [] := fun h => he (List.isEmpty_iff.mpr h)
    by_cases hs : wf.nodes.any (fun n => n.name == "start") = true
    · have hex : ∃ n ∈ wf.nodes, n.name = "start" := by
        obtain ⟨n, hn, hp⟩ := List.any_eq_true.mp hs
        exact ⟨n, hn, by simpa using hp⟩
      simp only [hs, Bool.not_true, Bool.false_eq_true, if_false]
      cases hd : firstDuplicate (nodeNames wf) with
      | some n =>
        have hnd : ¬(nodeNames wf).Nodup := by
          intro hcon
          rw [← firstDuplicate_eq_none_iff] at hcon
          rw [hd] at hcon
          cases hcon
        simp [exceptOk, hnd, hex, hne]
      | none =>
        have hnd : (nodeNames wf).Nodup := (firstDuplicate_eq_none_iff _).mp hd
        simp [exceptOk, hnd, hex, hne]
    · have hs' : wf.nodes.any (fun n => n.name == "start") = false := by
        cases h : wf.nodes.any (fun n => n.name == "start")
        · rfl
        · exact absurd h hs
      have hnex : ¬∃ n ∈ wf.nodes, n.name = "start" := by
        intro ⟨n, hn, hp⟩
        exact hs (List.any_eq_true.mpr ⟨n, hn, by simpa using hp⟩)
      simp [hs', exceptOk, hnex]

theorem validateSandboxFunctions_isOk_iff (nodes : List WorkflowNode)
    (pf : List (String × Caps)) :
    exceptOk (validateSandboxFunctions nodes pf) = true ↔
      ∀ n ∈ nodes, ∀ f ∈ n.sandbox, isFunctionAvailable f pf = true := by
  induction nodes with
  | nil => simp [validateSandboxFunctions, exceptOk]
  | cons node rest ih =>
    unfold validateSandboxFunctions
    cases hf : node.sandbox.find? (fun f => !(isFunctionAvailable f pf)) with
    | some f =>
      have hmem := List.mem_of_find?_eq_some hf
      have hpred := List.find?_some hf
      have hbad : isFunctionAvailable f pf = false := by
        simpa using hpred
      constructor
      · intro h; cases h
      · rintro hall
        have := hall node (List.mem_cons_self _ _) f hmem
        rw [hbad] at this
        cases this
    | none =>
      rw [ih]
      have hok : ∀ f ∈ node.sandbox, isFunctionAvailable f pf = true := by
        intro f hfm
        have := List.find?_eq_none.mp hf f hfm
        simpa using this
      constructor
      · intro hall
        intro n hn f hfm
        rcases List.mem_cons.mp hn with rfl | hn'
        · exact hok f hfm
        · exact hall n hn' f hfm
      · intro hall n hn f hfm
        exact hall n (List.mem_cons_of_mem _ hn) f hfm

theorem validateSandboxConfiguration_isOk_iff (isDeno : Bool) (wf : WorkflowDefinition) :
    exceptOk (validateSandboxConfiguration isDeno wf) = true ↔
      ((∃ n ∈ wf.nodes, n.sandbox ≠ []) →
        (isDeno = true ∧
         ∀ n ∈ wf.nodes, ∀ f ∈ n.sandbox, isFunctionAvailable f wf.protectedFunctions = true)) := by
  unfold validateSandboxConfiguration
  by_cases ha : wf.nodes.any (fun n => !n.sandbox.isEmpty) = true
  · rw [if_pos ha]
    have hex : ∃ n ∈ wf.nodes, n.sandbox ≠ [] := by
      obtain ⟨n, hn, hp⟩ := List.any_eq_true.mp ha
      refine ⟨n, hn, ?_⟩
      intro hcon
      rw [hcon] at hp
      simp at hp
    unfold validateSandboxSupport
    cases isDeno with
    | true =>
      rw [if_pos rfl]
      rw [validateSandboxFunctions_isOk_iff]
      simp [hex]
    | false =>
      simp only [Bool.false_eq_true, if_false]
      constructor
      · intro h; cases h
      · intro h
        exact absurd (h hex).1 (by simp)
  · rw [if_neg ha]
    have hnone : ∀ n ∈ wf.nodes, n.sandbox = [] := by
      intro n hn
      by_contra hcon
      refine ha (List.any_eq_true.mpr ⟨n, hn, ?_⟩)
      cases hsb : n.sandbox.isEmpty
      · simp
      · exact absurd (List.isEmpty_iff.mp hsb) hcon
    constructor
    · intro _ hex
      obtain ⟨n, hn, hne⟩ := hex
      exact absurd (hnone n hn) hne
    · intro _
      rfl

theorem start_exists_iff_countP_one (nodes : List WorkflowNode)
    (hnd : (nodes.map (fun n => n.name)).Nodup) :
    (∃ n ∈ nodes, n.name = "start") ↔ nodes.countP (fun n => n.name == "start") = 1 := by
  have hcp : nodes.countP (fun n => n.name == "start") =
      (nodes.map (fun n => n.name)).count "start" := by
    rw [List.count, List.countP_map]
    rfl
  have hle : (nodes.map (fun n => n.name)).count "start" ≤ 1 :=
    List.nodup_iff_count_le_one.mp hnd "start"
  have hmemiff : "start" ∈ nodes.map (fun n => n.name) ↔ ∃ n ∈ nodes, n.name = "start" := by
    simp [List.mem_map]
  have hposiff : "start" ∈ nodes.map (fun n => n.name) ↔
      0 < (nodes.map (fun n => n.name)).count "start" := by
    exact (List.count_pos_iff).symm
  rw [hcp, ← hmemiff, hposiff]
  omega

end WorkflowBase

namespace WorkflowBase

/-- C4 (amended): `createWorkflow` succeeds exactly when the definition
has at least one node, exactly one node named `start`, no duplicate node
names, every name in any sandboxed node's whitelist resolves by dot-path
traversal to a function in the capability registry, and — when at least
one node is sandboxed — the runtime environment supports sandbox
workers; all violations are raised at construction time, and execution
never raises (it always returns a `Result`). -/
theorem createWorkflow_valid_iff :
    (∀ (isDeno : Bool) (name : String) (nodes : List WorkflowNode) (pf : List (String × Caps)),
        exceptOk (createWorkflow isDeno name nodes pf) = true ↔
          (nodes ≠ [] ∧
           nodes.countP (fun n => n.name == "start") = 1 ∧
           (nodes.map (fun n => n.name)).Nodup ∧
           ((∃ n ∈ nodes, n.sandbox ≠ []) →
             (isDeno = true ∧
              ∀ n ∈ nodes, ∀ f ∈ n.sandbox, isFunctionAvailable f pf = true)))) ∧
    (∀ (engine : WorkflowEngine) (n : String) (input : JVal),
        (executeWorkflow engine n input).isSome = true) := by
  refine ⟨?_, fun engine n i => executeWorkflow_isSome engine n i⟩
  intro isDeno name nodes pf
  have h1 := validateWorkflow_isOk_iff
    { name := name, nodes := nodes, protectedFunctions := pf }
  have h2 := validateSandboxConfiguration_isOk_iff isDeno
    { name := name, nodes := nodes, protectedFunctions := pf }
  unfold createWorkflow
  cases hv : validateWorkflow { name := name, nodes := nodes, protectedFunctions := pf } with
  | error m =>
    rw [hv] at h1
    have hno : ¬(nodes ≠ [] ∧ (∃ n ∈ nodes, n.name = "start") ∧
        (nodes.map (fun n => n.name)).Nodup) := by
      intro hcon
      have hfalse := h1.mpr hcon
      simp [exceptOk] at hfalse
    simp only [hv, exceptOk, Bool.false_eq_true, false_iff]
    rintro ⟨hA, hB, hC, _⟩
    exact hno ⟨hA, (start_exists_iff_countP_one nodes hC).mpr hB, hC⟩
  | ok u =>
    rw [hv] at h1
    obtain ⟨hA, hE, hC⟩ := h1.mp rfl
    cases hsc : validateSandboxConfiguration isDeno
        { name := name, nodes := nodes, protectedFunctions := pf } with
    | error m =>
      rw [hsc] at h2
      have hnD : ¬((∃ n ∈ nodes, n.sandbox ≠ []) →
          (isDeno = true ∧ ∀ n ∈ nodes, ∀ f ∈ n.sandbox, isFunctionAvailable f pf = true)) := by
        intro hcon
        have hfalse := h2.mpr hcon
        simp [exceptOk] at hfalse
      simp only [hv, hsc, exceptOk, Bool.false_eq_true, false_iff]
      rintro ⟨_, _, _, hD⟩
      exact hnD hD
    | ok u2 =>
      rw [hsc] at h2
      have hD := h2.mp rfl
      simp only [hv, hsc, exceptOk, true_iff]
      exact ⟨hA, (start_exists_iff_countP_one nodes hC).mp hE, hC, hD⟩

/-- C4 counterexample: a definition with one sandboxed `start` node whose
whitelisted name resolves to a function still fails construction in an
environment without sandbox-worker support, although every condition the
claim lists holds. -/
theorem createWorkflow_env_counterexample :
    exceptOk (createWorkflow false "sb" sandboxZeroWorkflow.nodes
        sandboxZeroWorkflow.protectedFunctions) = false ∧
    sandboxZeroWorkflow.nodes.length = 1 ∧
    sandboxZeroWorkflow.nodes.countP (fun n => n.name == "start") = 1 ∧
    (sandboxZeroWorkflow.nodes.map (fun n => n.name)).Nodup ∧
    (∀ n ∈ sandboxZeroWorkflow.nodes, ∀ f ∈ n.sandbox,
        isFunctionAvailable f sandboxZeroWorkflow.protectedFunctions = true) := by
  refine ⟨rfl, rfl, rfl, ?_, ?_⟩
  · simp [sandboxZeroWorkflow]
  · intro n hn f hf
    simp only [sandboxZeroWorkflow, List.mem_singleton] at hn
    subst hn
    simp only [List.mem_singleton] at hf
    subst hf
    rfl

end WorkflowBase

namespace WorkflowBase

/-- C3: when an activation records two or more continuation calls and all
branch executions settle, the intercepted calls are grouped by target
name and each distinct target is resolved exactly once (the resolved
targets are exactly the intercepted targets, without duplicates); a
target with a single contributing call receives that call's data
verbatim, one with several receives the shallow merge of their data
objects; and a shallow-merged key always holds the value of the last
contributor (in processing order) that assigned it. -/
theorem fanout_grouping_and_merge :
    (∀ (wf : WorkflowDefinition) (exec : String → JVal → Option ExecOutcome)
        (calls : List (String × JVal)) (flat : List (String × String × JVal))
        (frs : List (String × WorkflowResult × JVal)),
        2 ≤ calls.length →
        runBranches wf calls = .ok flat →
        runGrouped exec (groupByTarget flat) = some (.ok frs) →
        executeParallelNextCalls wf exec calls = some (.ok frs) ∧
        (frs.map (fun x => x.1)).Nodup ∧
        (∀ t, t ∈ frs.map (fun x => x.1) ↔ t ∈ flat.map (fun c => c.2.1)) ∧
        (∀ x ∈ frs, contributionsOf x.1 flat ≠ [] ∧
            (∀ d, contributionsOf x.1 flat = [d] → x.2.2 = d) ∧
            (2 ≤ (contributionsOf x.1 flat).length →
              x.2.2 = mergeInputs (contributionsOf x.1 flat)))) ∧
    (∀ (fss : List (List (String × JVal))) (k : String),
        getField (mergeInputs (fss.map JVal.vobj)) k = olookup fss.flatten.reverse k) := by
  refine ⟨?_, fun fss k => getField_mergeInputs_lastWins fss k⟩
  intro wf exec calls flat frs hlen hbr hrg
  have hnodup := nodup_keys_groupByTarget flat
  obtain ⟨hkeys, hmem⟩ := runGrouped_spec exec (groupByTarget flat) frs hnodup hrg
  refine ⟨?_, ?_, ?_, ?_⟩
  · unfold executeParallelNextCalls
    rw [hbr]
    exact hrg
  · rw [hkeys]
    exact hnodup
  · intro t
    rw [hkeys, ← lookupGroup_isSome_iff, lookupGroup_groupByTarget]
    cases hc : contributionsOf t flat with
    | nil =>
      have ht := (contributionsOf_eq_nil_iff t flat).mp hc
      simp [ht]
    | cons c0 cs0 =>
      have ht : t ∈ flat.map (fun c => c.2.1) := by
        by_contra hcon
        rw [(contributionsOf_eq_nil_iff t flat).mpr hcon] at hc
        cases hc
      simp [ht]
  · intro x hx
    obtain ⟨ds, hds, hdata⟩ := hmem x hx
    rw [lookupGroup_groupByTarget] at hds
    cases hc : contributionsOf x.1 flat with
    | nil =>
      rw [hc] at hds
      cases hds
    | cons c0 cs0 =>
      rw [hc] at hds
      have hdseq : ds = c0 :: cs0 := by
        cases hds
        rfl
      subst hdseq
      refine ⟨by simp, ?_, ?_⟩
      · intro d hd
        rw [hd] at hdata
        exact hdata
      · intro hlen2
        cases cs0 with
        | nil => simp at hlen2
        | cons c1 cs1 => exact hdata

/-- Witness for C3 at the spec's fan-out example (`start` → `m`,`p` → `r`):
`r` is resolved once with the shallow merge (`k` taken from the last
contributor `p`). -/
theorem fanout_grouping_and_merge_witness :
    executeParallelNextCalls fanoutWorkflow
        (fun t d => executeNode fanoutWorkflow 2 t d ["start"])
        [("m", .vobj []), ("p", .vobj [])] =
      some (.ok
        [("r",
          { success := true
          , result := some (.vobj [("a", .vnum 1), ("k", .vnum 20), ("b", .vnum 2)])
          , error := none
          , executionPath := some ["start", "r"] }
        , .vobj [("a", .vnum 1), ("k", .vnum 20), ("b", .vnum 2)])]) := by
  exact (fanout_grouping_and_merge.1 fanoutWorkflow
    (fun t d => executeNode fanoutWorkflow 2 t d ["start"])
    [("m", .vobj []), ("p", .vobj [])]
    [("m", "r", .vobj [("a", .vnum 1), ("k", .vnum 10)]),
     ("p", "r", .vobj [("b", .vnum 2), ("k", .vnum 20)])]
    [("r",
      { success := true
      , result := some (.vobj [("a", .vnum 1), ("k", .vnum 20), ("b", .vnum 2)])
      , error := none
      , executionPath := some ["start", "r"] }
      , .vobj [("a", .vnum 1), ("k", .vnum 20), ("b", .vnum 2)])]
    (by decide) rfl rfl).1

end WorkflowBase
